import Mathlib

/-!
A verification development for the BlessCrawl TypeScript SDK client
(src/lib/bless-crawl.ts): a shallow embedding of its data model
(JavaScript values), its zod-based option validation, its dual-mode
dispatch, and its remote response decoder, together with theorems about
the behaviours the documentation ascribes to them.

JavaScript values are modelled by the inductive type JsVal below; the
distinguished value JsVal.undefined models the JavaScript value undefined
(property access on a missing key). JavaScript numbers are modelled as
integers: every numeric constant appearing in the source is an integer,
and the zod schemas all carry .int() checks, so non-integral inputs are
outside the scope of the claims treated here.
-/

/-- Model of a JavaScript value (including undefined). Objects are
association lists of fields in insertion order; the code only ever
builds objects with pairwise distinct keys, as JavaScript does. -/
inductive JsVal where
  | undefined : JsVal
  | null : JsVal
  | bool : Bool → JsVal
  | num : Int → JsVal
  | str : String → JsVal
  | arr : List JsVal → JsVal
  | obj : List (String × JsVal) → JsVal

/-- First-occurrence lookup in an object's field list. -/
def findVal : List (String × JsVal) → String → Option JsVal
  | [], _ => none
  | (k, v) :: fs, key => if k = key then some v else findVal fs key

/-- JavaScript property access: obj.k, yielding undefined when the key is
missing or the receiver is not an object. -/
def jsGet (v : JsVal) (k : String) : JsVal :=
  match v with
  | .obj fs => (findVal fs k).getD .undefined
  | _ => .undefined

/-- The field list of an object value, empty for non-objects. -/
def objFields : JsVal → List (String × JsVal)
  | .obj fs => fs
  | _ => []

/-- JavaScript truthiness: undefined, null, false, 0 and the empty string
are falsy; every array and object is truthy. -/
def JsVal.truthy : JsVal → Bool
  | .undefined => false
  | .null => false
  | .bool b => b
  | .num n => n != 0
  | .str s => s != ""
  | .arr _ => true
  | .obj _ => true

/-- Whether the JavaScript typeof operator yields "object" for the value
(true for null, arrays and plain objects). -/
def jsTypeofObject : JsVal → Bool
  | .null => true
  | .arr _ => true
  | .obj _ => true
  | _ => false

/-- x || y for JavaScript values. -/
def jsOr (a b : JsVal) : JsVal := if a.truthy then a else b

/-- Array indexing arr[0]; undefined when out of range or not an array. -/
def jsIndex0 : JsVal → JsVal
  | .arr (x :: _) => x
  | _ => .undefined

/-- The name of a value's runtime type, as zod reports it. -/
def typeNameOf : JsVal → String
  | .undefined => "undefined"
  | .null => "null"
  | .bool _ => "boolean"
  | .num _ => "number"
  | .str _ => "string"
  | .arr _ => "array"
  | .obj _ => "object"

mutual
/-- String coercion of a JavaScript value, as used by template literals. -/
def jsDisplay : JsVal → String
  | .undefined => "undefined"
  | .null => "null"
  | .bool true => "true"
  | .bool false => "false"
  | .num n => toString n
  | .str s => s
  | .arr xs => String.intercalate "," (jsDisplayL xs)
  | .obj _ => "[object Object]"

def jsDisplayL : List JsVal → List String
  | [] => []
  | x :: xs => jsDisplay x :: jsDisplayL xs
end

/-- JSON string escaping for one character. -/
def escapeChar (c : Char) : String :=
  if c = '"' then "\\\""
  else if c = '\\' then "\\\\"
  else if c = '\n' then "\\n"
  else if c = '\r' then "\\r"
  else if c = '\t' then "\\t"
  else String.singleton c

/-- A JSON string literal for s. -/
def quoteStr (s : String) : String :=
  "\"" ++ String.join (s.toList.map escapeChar) ++ "\""

mutual
/-- Model of JSON.stringify: none for undefined (dropped from objects,
null inside arrays). -/
def stringifyV : JsVal → Option String
  | .undefined => none
  | .null => some "null"
  | .bool true => some "true"
  | .bool false => some "false"
  | .num n => some (toString n)
  | .str s => some (quoteStr s)
  | .arr xs => some ("[" ++ String.intercalate "," (stringifyA xs) ++ "]")
  | .obj fs => some ("\x7b" ++ String.intercalate "," (stringifyF fs) ++ "\x7d")

def stringifyA : List JsVal → List String
  | [] => []
  | x :: xs => (stringifyV x).getD "null" :: stringifyA xs

def stringifyF : List (String × JsVal) → List String
  | [] => []
  | (k, v) :: fs =>
    match stringifyV v with
    | none => stringifyF fs
    | some s => (quoteStr k ++ ":" ++ s) :: stringifyF fs
end

/-- JSON.stringify of a value known to be defined. -/
def jsonStringify (v : JsVal) : String := (stringifyV v).getD "undefined"

/-- Drop all but the first occurrence of each key. -/
def dedupFields : List (String × JsVal) → List (String × JsVal)
  | [] => []
  | (k, v) :: fs => (k, v) :: dedupFields (fs.filter (fun p => p.1 ≠ k))
termination_by fs => fs.length
decreasing_by
  simp only [List.length_cons]
  exact Nat.lt_succ_of_le (List.length_filter_le _ _)

/-- Lexicographic order on character lists by codepoint. -/
def charListLe : List Char → List Char → Bool
  | [], _ => true
  | _ :: _, [] => false
  | a :: as, b :: bs =>
    if a.toNat < b.toNat then true
    else if b.toNat < a.toNat then false
    else charListLe as bs

/-- A total order on keys used only to canonicalise objects. -/
def keyLe (a b : String) : Bool := charListLe a.toList b.toList

/-- Insert a field into a key-sorted field list. -/
def insertField (p : String × JsVal) : List (String × JsVal) → List (String × JsVal)
  | [] => [p]
  | q :: qs => if keyLe p.1 q.1 then p :: q :: qs else q :: insertField p qs

/-- Sort a field list by key (insertion sort). -/
def sortFields : List (String × JsVal) → List (String × JsVal)
  | [] => []
  | p :: ps => insertField p (sortFields ps)

mutual
/-- Canonical form of a JavaScript value: object fields are deduplicated
and sorted by key, recursively. Two values are deep-equal in the
JavaScript sense (key order irrelevant) iff their canonical forms are
equal. -/
def canonV : JsVal → JsVal
  | .undefined => .undefined
  | .null => .null
  | .bool b => .bool b
  | .num n => .num n
  | .str s => .str s
  | .arr xs => .arr (canonL xs)
  | .obj fs => .obj (sortFields (dedupFields (canonF fs)))

def canonL : List JsVal → List JsVal
  | [] => []
  | x :: xs => canonV x :: canonL xs

def canonF : List (String × JsVal) → List (String × JsVal)
  | [] => []
  | (k, v) :: fs => (k, canonV v) :: canonF fs
end

/-- Deep equality of JavaScript values, insensitive to object key order. -/
def jsEqual (a b : JsVal) : Prop := canonV a = canonV b

/-- Whether a value is the undefined value. -/
def isUndefined : JsVal → Bool
  | .undefined => true
  | _ => false

/-- JavaScript strict equality of a value with a string literal. -/
def jsEqStr (v : JsVal) (s : String) : Bool :=
  match v with
  | .str t => t = s
  | _ => false

/-- JavaScript strict equality of a value with a number literal. -/
def jsEqNum (v : JsVal) (n : Int) : Bool :=
  match v with
  | .num m => m = n
  | _ => false

/-- One zod validation issue: the path of the offending field and a
human-readable message (z.ZodIssue, as consumed by formatZodErrors). -/
structure Issue where
  path : List String
  message : String
deriving DecidableEq

/-- The cause payload attached to a BlessCrawlError: either a JavaScript
value (raw reply, result, parsed stdout, inner details), the
\x7bstdout, parseError\x7d pair of the stdout-parse failure, a caught
exception (modelled by its message), or the zod issue list carried by a
validation failure. -/
inductive Cause where
  | json : JsVal → Cause
  | stdoutPair : String → String → Cause
  | exn : String → Cause
  | issues : List Issue → Cause

/-- Model of BlessCrawlError: a message, an optional machine-readable
code (kept as a JsVal because the operation-failure path forwards the
inner error's own code value verbatim), an optional cause, and, for the
BlessCrawlValidationError subclass, the zod issue list. -/
structure BCError where
  message : String
  code : Option JsVal
  cause : Option Cause
  validationErrors : Option (List Issue)

/-- Builds the plain BlessCrawlError raised inside makeHttpRequest. -/
def bcErr (message : String) (code : String) (cause : Option Cause) : BCError :=
  ⟨message, some (.str code), cause, none⟩

/-- The tail of the decode chain of makeHttpRequest from the stdout
checks on (bless-crawl.ts lines 478-525), applied to
results[0].result: the stdout guard (which also rejects the empty
string), JSON.parse, and the StdinOutput checks. -/
def decodeStdout (parse : String → Except String JsVal) (res : JsVal) :
    Except BCError JsVal :=
  -- !stdout || typeof stdout !== 'string': every non-string and the
  -- empty string fail this guard.
  match jsGet res "stdout" with
  | .str s =>
    if s = "" then
      .error (bcErr "Invalid stdout: expected non-empty string" "STDOUT_FORMAT_ERROR"
        (some (.json res)))
    else
      match parse s with
      | .error perr =>
        .error (bcErr ("Failed to parse stdout as JSON: " ++ perr) "STDOUT_PARSE_ERROR"
          (some (.stdoutPair s perr)))
      | .ok stdinOutput =>
        if !stdinOutput.truthy || !jsTypeofObject stdinOutput then
          .error (bcErr "Invalid StdinOutput format: expected JSON object"
            "STDIN_OUTPUT_FORMAT_ERROR" (some (.json stdinOutput)))
        else if !(jsGet stdinOutput "success").truthy then
          let errObj := jsGet stdinOutput "error"
          .error ⟨jsDisplay (jsOr (jsGet errObj "message") (.str "Operation failed")),
            some (jsOr (jsGet errObj "code") (.str "OPERATION_ERROR")),
            (match jsGet errObj "details" with
             | .undefined => none
             | d => some (.json d)),
            none⟩
        else if !(jsGet stdinOutput "data").truthy then
          .error (bcErr "No data returned from successful operation" "NO_DATA_ERROR"
            (some (.json stdinOutput)))
        else
          .ok (jsGet stdinOutput "data")
  | _ =>
    .error (bcErr "Invalid stdout: expected non-empty string" "STDOUT_FORMAT_ERROR"
      (some (.json res)))

/-- Decode of the reply body of makeHttpRequest (bless-crawl.ts lines
434-525), after fetch succeeded and response.json() produced the value
httpResult. JSON.parse of the stdout string is abstracted by the parse
argument, which returns the parsed value or the parse error's message. -/
def decodeBody (parse : String → Except String JsVal) (httpResult : JsVal) :
    Except BCError JsVal :=
  if !httpResult.truthy || !jsTypeofObject httpResult then
    .error (bcErr "Invalid response format: expected JSON object" "RESPONSE_FORMAT_ERROR" none)
  else if !jsEqStr (jsGet httpResult "code") "200" then
    .error (bcErr ("Function execution failed with code " ++ jsDisplay (jsGet httpResult "code"))
      "FUNCTION_EXECUTION_ERROR" (some (.json httpResult)))
  else
    let results := jsGet httpResult "results"
    -- !results || !Array.isArray(results) || results.length === 0
    if !results.truthy || !(match results with | .arr (_ :: _) => true | _ => false) then
      .error (bcErr "No results returned from function execution" "NO_RESULTS_ERROR"
        (some (.json httpResult)))
    else
      let firstResult := jsIndex0 results
      if !firstResult.truthy || !(jsGet firstResult "result").truthy then
        .error (bcErr "Invalid result structure: missing result field" "RESULT_FORMAT_ERROR"
          (some (.json firstResult)))
      else
        let res := jsGet firstResult "result"
        if !jsEqNum (jsGet res "exit_code") 0 then
          .error (bcErr ("Function execution failed with exit code "
              ++ jsDisplay (jsGet res "exit_code") ++ ": "
              ++ jsDisplay (jsOr (jsGet res "stderr") (.str "No error details available")))
            "FUNCTION_EXIT_ERROR" (some (.json res)))
        else
          decodeStdout parse res

/-- The fetch response as seen by makeHttpRequest: the ok flag and
status of the HTTP reply, and the outcome of response.json(). -/
structure HttpResponse where
  ok : Bool
  status : Int
  statusText : String
  body : Except String JsVal

/-- Model of makeHttpRequest's reply handling: fetch rejection (the
Except.error case of resp) and response.json() rejection are caught by
the surrounding try/catch and wrapped as HTTP_ERROR; a non-ok status
raises HTTP_ERROR; otherwise the body is decoded by decodeBody, whose
BlessCrawlError failures are rethrown unchanged. -/
def makeHttpRequest (parse : String → Except String JsVal)
    (resp : Except String HttpResponse) : Except BCError JsVal :=
  match resp with
  | .error e =>
    .error (bcErr ("Failed to make HTTP request: " ++ e) "HTTP_ERROR" (some (.exn e)))
  | .ok r =>
    if !r.ok then
      .error (bcErr ("HTTP request failed with status " ++ toString r.status ++ ": "
        ++ r.statusText) "HTTP_ERROR" none)
    else
      match r.body with
      | .error e =>
        .error (bcErr ("Failed to make HTTP request: " ++ e) "HTTP_ERROR" (some (.exn e)))
      | .ok b => decodeBody parse b

/-- A zod field validator: takes the value found at the field (undefined
when absent) and returns the parsed value or a list of issues with paths
relative to the field. -/
def FieldCheck : Type := JsVal → Except (List Issue) JsVal

/-- A single issue at the current path. -/
def issueHere (m : String) : List Issue := [⟨[], m⟩]

/-- z.optional(): undefined is accepted and parsed to undefined. -/
def optC (c : FieldCheck) : FieldCheck := fun v =>
  match v with
  | .undefined => .ok .undefined
  | w => c w

/-- z.number().int().min(lo).max(hi). Numbers are modelled as integers,
so the .int() check is implicit. -/
def intC (lo hi : Int) : FieldCheck := fun v =>
  match v with
  | .num n =>
    if n < lo then .error (issueHere ("Number must be greater than or equal to " ++ toString lo))
    else if hi < n then .error (issueHere ("Number must be less than or equal to " ++ toString hi))
    else .ok (.num n)
  | w => .error (issueHere ("Expected number, received " ++ typeNameOf w))

/-- z.boolean(). -/
def boolC : FieldCheck := fun v =>
  match v with
  | .bool b => .ok (.bool b)
  | w => .error (issueHere ("Expected boolean, received " ++ typeNameOf w))

/-- z.enum(vals). -/
def enumC (vals : List String) : FieldCheck := fun v =>
  match v with
  | .str s => if s ∈ vals then .ok (.str s) else .error (issueHere "Invalid enum value")
  | w => .error (issueHere ("Expected string, received " ++ typeNameOf w))

/-- z.string() with no further checks. -/
def strPlainC : FieldCheck := fun v =>
  match v with
  | .str s => .ok (.str s)
  | w => .error (issueHere ("Expected string, received " ++ typeNameOf w))

/-- z.string().min(minL).max(maxL) with an optional .regex check, which
zod evaluates collecting every failed check as its own issue. -/
def strC (minL maxL : Nat) (rx : Option ((String → Bool) × String)) : FieldCheck := fun v =>
  match v with
  | .str s =>
    let l1 := if s.length < minL then
        issueHere ("String must contain at least " ++ toString minL ++ " character(s)") else []
    let l2 := if maxL < s.length then
        issueHere ("String must contain at most " ++ toString maxL ++ " character(s)") else []
    let l3 := match rx with
      | some (p, m) => if p s then [] else issueHere m
      | none => []
    match l1 ++ l2 ++ l3 with
    | [] => .ok (.str s)
    | is => .error is
  | w => .error (issueHere ("Expected string, received " ++ typeNameOf w))

/-- z.string().regex(p, m) with no length bound. -/
def strRegexC (p : String → Bool) (m : String) : FieldCheck := fun v =>
  match v with
  | .str s => if p s then .ok (.str s) else .error (issueHere m)
  | w => .error (issueHere ("Expected string, received " ++ typeNameOf w))

/-- Runs an element validator over an array, prefixing issue paths with
element indices. Returns the issues and the parsed elements. -/
def arrElems (c : FieldCheck) : Nat → List JsVal → List Issue × List JsVal
  | _, [] => ([], [])
  | i, x :: xs =>
    let rest := arrElems c (i + 1) xs
    match c x with
    | .ok w => (rest.1, w :: rest.2)
    | .error es => (es.map (fun e => ⟨toString i :: e.path, e.message⟩) ++ rest.1, rest.2)

/-- z.array(c).max(maxN). -/
def arrayC (c : FieldCheck) (maxN : Nat) : FieldCheck := fun v =>
  match v with
  | .arr xs =>
    let maxIss := if maxN < xs.length then
        issueHere ("Array must contain at most " ++ toString maxN ++ " element(s)") else []
    let elems := arrElems c 0 xs
    match maxIss ++ elems.1 with
    | [] => .ok (.arr elems.2)
    | is => .error is
  | w => .error (issueHere ("Expected array, received " ++ typeNameOf w))

/-- Validates the entries of a z.record: each key against the key
validator and each value against the value validator, with the key as
issue path. Returns the issues and the parsed entries. -/
def recEntries (keyC valC : FieldCheck) : List (String × JsVal) → List Issue × List (String × JsVal)
  | [] => ([], [])
  | (k, v) :: fs =>
    let rest := recEntries keyC valC fs
    let keyIss := match keyC (.str k) with
      | .ok _ => []
      | .error es => es.map (fun e => ⟨k :: e.path, e.message⟩)
    match valC v with
    | .ok w => (keyIss ++ rest.1, (k, w) :: rest.2)
    | .error es =>
      (keyIss ++ es.map (fun e => ⟨k :: e.path, e.message⟩) ++ rest.1, rest.2)

/-- z.record(keyC, valC).refine(size ≤ refineMax, refineMsg): the
refinement runs only when the record itself parsed successfully. -/
def recordC (keyC valC : FieldCheck) (refineMax : Nat) (refineMsg : String) : FieldCheck :=
  fun v =>
  match v with
  | .obj fs =>
    let entries := recEntries keyC valC fs
    match entries.1 with
    | [] =>
      if refineMax < fs.length then .error (issueHere refineMsg)
      else .ok (.obj entries.2)
    | is => .error is
  | w => .error (issueHere ("Expected object, received " ++ typeNameOf w))

/-- Runs a z.object schema's field validators over an input object's
fields. A parsed key appears in the output iff its parsed value is not
undefined or the key is present in the input (zod's key-inclusion rule);
issues are prefixed with the field key. -/
def runFields (input : List (String × JsVal)) : List (String × FieldCheck) →
    List Issue × List (String × JsVal)
  | [] => ([], [])
  | (k, c) :: rest =>
    let tail := runFields input rest
    match c ((findVal input k).getD .undefined) with
    | .ok w =>
      if !isUndefined w || (findVal input k).isSome then (tail.1, (k, w) :: tail.2)
      else (tail.1, tail.2)
    | .error es => (es.map (fun e => ⟨k :: e.path, e.message⟩) ++ tail.1, tail.2)

/-- z.object(schema).parse: non-objects are rejected outright; otherwise
every field validator runs, all issues are collected, and on success the
output object holds exactly the parsed declared fields (unknown keys are
stripped). -/
def runSchema (schema : List (String × FieldCheck)) (v : JsVal) : Except (List Issue) JsVal :=
  match v with
  | .obj fs =>
    let r := runFields fs schema
    match r.1 with
    | [] => .ok (.obj r.2)
    | is => .error is
  | w => .error (issueHere ("Expected object, received " ++ typeNameOf w))

/-- The regex ^[a-zA-Z][a-zA-Z0-9-]*$ for HTML tag names. -/
def tagRegex (s : String) : Bool :=
  match s.toList with
  | [] => false
  | c :: cs => c.isAlpha && cs.all (fun d => d.isAlpha || d.isDigit || d = '-')

/-- The regex ^[a-zA-Z][a-zA-Z0-9-_]*$ for HTTP header names. -/
def headerRegex (s : String) : Bool :=
  match s.toList with
  | [] => false
  | c :: cs => c.isAlpha && cs.all (fun d => d.isAlpha || d.isDigit || d = '-' || d = '_')

/-- The regex ^\.[a-zA-Z0-9]\x7b1,10\x7d$ for file extensions. -/
def extRegex (s : String) : Bool :=
  match s.toList with
  | c :: cs =>
    c = '.' && decide (1 ≤ cs.length) && decide (cs.length ≤ 10)
      && cs.all (fun d => d.isAlpha || d.isDigit)
  | [] => false

/-- The element validator of include_tags / exclude_tags. -/
def tagElemC : FieldCheck := strC 1 50 (some (tagRegex, "Invalid HTML tag name"))

/-- The ViewportSchema field list (width 320-7680, height 240-4320). -/
def ViewportSchemaL : List (String × FieldCheck) :=
  [("width", optC (intC 320 7680)),
   ("height", optC (intC 240 4320))]

/-- The viewport field validator: an optional nested object. -/
def viewportC : FieldCheck := optC (fun v => runSchema ViewportSchemaL v)

/-- The headers field validator: a record of at most 20 entries with
header-name keys of 1-100 characters and values of at most 1000. -/
def headersC : FieldCheck :=
  recordC (strC 1 100 (some (headerRegex, "Invalid header name"))) (strC 0 1000 none)
    20 "Maximum 20 headers allowed"

/-- ScrapeOptionsSchema (bless-crawl.ts lines 36-65). -/
def ScrapeOptionsSchemaL : List (String × FieldCheck) :=
  [("timeout", optC (intC 5000 120000)),
   ("wait_time", optC (intC 0 20000)),
   ("include_tags", optC (arrayC tagElemC 50)),
   ("exclude_tags", optC (arrayC tagElemC 50)),
   ("only_main_content", optC boolC),
   ("format", optC (enumC ["markdown", "html", "json"])),
   ("viewport", viewportC),
   ("user_agent", optC (strC 1 500 none)),
   ("headers", optC headersC)]

/-- MapOptionsSchema (bless-crawl.ts lines 68-79). -/
def MapOptionsSchemaL : List (String × FieldCheck) :=
  [("link_types", optC (arrayC (enumC ["internal", "external", "anchor", "mailto", "tel", "file"]) 10)),
   ("base_url", optC strPlainC),
   ("filter_extensions", optC (arrayC (strRegexC extRegex "Extension must start with dot and be 1-10 chars") 20))]

/-- CrawlOptionsSchema (bless-crawl.ts lines 82-101). -/
def CrawlOptionsSchemaL : List (String × FieldCheck) :=
  [("limit", optC (intC 1 1000)),
   ("max_depth", optC (intC 1 5)),
   ("exclude_paths", optC (arrayC (strC 1 200 none) 100)),
   ("include_paths", optC (arrayC (strC 1 200 none) 100)),
   ("follow_external", optC boolC),
   ("delay_between_requests", optC (intC 0 30000)),
   ("parallel_requests", optC (intC 1 5))]

/-- ScrapeOptionsSchema.extend with endpoint_url / function_id, used by
validateConfig. -/
def ConfigSchemaL : List (String × FieldCheck) :=
  ScrapeOptionsSchemaL ++
  [("endpoint_url", optC strPlainC),
   ("function_id", optC strPlainC)]

/-- formatZodErrors: "path.joined: message" entries joined by "; ". -/
def formatIssues (l : List Issue) : String :=
  String.intercalate "; "
    (l.map (fun e =>
      (if e.path.isEmpty then "" else String.intercalate "." e.path ++ ": ") ++ e.message))

/-- Wraps a schema run in the BlessCrawlValidationError raised by the
validateXxxOptions helpers: code VALIDATION_ERROR, the ZodError as cause
and as the validationErrors property. -/
def validateWith (prefixMsg : String) (schema : List (String × FieldCheck)) (options : JsVal) :
    Except BCError JsVal :=
  match runSchema schema options with
  | .ok v => .ok v
  | .error is =>
    .error ⟨prefixMsg ++ formatIssues is, some (.str "VALIDATION_ERROR"),
      some (.issues is), some is⟩

/-- validateScrapeOptions. -/
def validateScrapeOptions (options : JsVal) : Except BCError JsVal :=
  validateWith "Scrape options validation failed: " ScrapeOptionsSchemaL options

/-- validateMapOptions. -/
def validateMapOptions (options : JsVal) : Except BCError JsVal :=
  validateWith "Map options validation failed: " MapOptionsSchemaL options

/-- validateCrawlOptions. -/
def validateCrawlOptions (options : JsVal) : Except BCError JsVal :=
  validateWith "Crawl options validation failed: " CrawlOptionsSchemaL options

/-- validateConfig. -/
def validateConfig (config : JsVal) : Except BCError JsVal :=
  validateWith "Configuration validation failed: " ConfigSchemaL config

/-- A BlessCrawl instance's dispatch-relevant state: the mode probed at
construction and the resolved endpoint settings. -/
structure Instance where
  isWasmMode : Bool
  endpoint_url : String
  function_id : String
deriving DecidableEq

/-- The built-in default endpoint URL (BLESS_ENDPOINT_URL property). -/
def defaultEndpointUrl : String := "http://localhost:8081/api/v1/functions/execute"

/-- The built-in default function id (BLESS_FUNCTION_ID property). -/
def defaultFunctionId : String := "bafybeibng4fppjveq7bsf3lcj7pahcn3353dkt4utmnzm63majnkq6dzkm"

/-- The constructor's setting resolution, one || chain per setting:
config.x || (typeof process !== 'undefined' && process.env?.X) || dflt.
A JavaScript || skips falsy operands, so an empty-string config value or
environment value falls through. -/
def resolveSetting (configVal : Option String) (processDefined : Bool)
    (envVal : Option String) (dflt : String) : String :=
  match configVal with
  | some s =>
    if s ≠ "" then s
    else match (if processDefined then envVal else none) with
      | some e => if e ≠ "" then e else dflt
      | none => dflt
  | none =>
    match (if processDefined then envVal else none) with
    | some e => if e ≠ "" then e else dflt
    | none => dflt

/-- The string value of a JavaScript value known (after config
validation) to be a string or undefined. -/
def asOptString : JsVal → Option String
  | .str s => some s
  | _ => none

/-- Model of the BlessCrawl constructor: probes for the wasm binding,
validates the config, and resolves endpoint_url / function_id with
precedence config over environment over default. -/
def mkInstance (wasmAvailable : Bool) (config : JsVal) (processDefined : Bool)
    (envEndpoint envFunction : Option String) : Except BCError Instance :=
  match validateConfig config with
  | .error e => .error e
  | .ok _ =>
    .ok ⟨wasmAvailable,
      resolveSetting (asOptString (jsGet config "endpoint_url")) processDefined envEndpoint
        defaultEndpointUrl,
      resolveSetting (asOptString (jsGet config "function_id")) processDefined envFunction
        defaultFunctionId⟩

/-- The outer POST body's config member. -/
structure RequestConfig where
  permissions : List JsVal
  stdin : String

/-- The outer POST body sent by makeHttpRequest. -/
structure RequestBody where
  function_id : String
  method : String
  config : RequestConfig

/-- The inner stdin document \x7boperation, url, config\x7d. -/
def stdinDoc (operation : String) (url : JsVal) (config : JsVal) : JsVal :=
  .obj [("operation", .str operation), ("url", url), ("config", config)]

/-- The POST body makeHttpRequest builds before calling fetch. -/
def buildRequestBody (inst : Instance) (operation : String) (url : JsVal) (config : JsVal) :
    RequestBody :=
  ⟨inst.function_id, "blessnet.wasm", ⟨[url], jsonStringify (stdinDoc operation url config)⟩⟩

/-- The effect an operation call commits to after its guard and
validation: either a call on the local wasm handle or exactly one HTTP
POST of a request body to the instance's endpoint. -/
inductive Dispatch where
  | onLocal : String → JsVal → JsVal → Dispatch
  | onHttp : String → RequestBody → Dispatch

/-- Whitespace for String.prototype.trim (ASCII part). -/
def isWsChar (c : Char) : Bool :=
  c = ' ' || c = '\t' || c = '\n' || c = '\r' || c = '\x0b' || c = '\x0c'

/-- Model of String.prototype.trim. -/
def jsTrim (s : String) : String :=
  String.mk (((s.toList.dropWhile isWsChar).reverse.dropWhile isWsChar).reverse)

/-- The pre-validation URL guard shared by scrape, map and crawl:
typeof url === 'string' and url.trim() !== ''. -/
def urlOk (url : JsVal) : Bool :=
  match url with
  | .str s => jsTrim s ≠ ""
  | _ => false

/-- The codeless BlessCrawlError raised by the URL guard. -/
def urlGuardError : BCError := ⟨"URL must be a non-empty string", none, none, none⟩

/-- The dispatch an operation commits to once its options are validated:
the local handle call in wasm mode, one HTTP POST otherwise. -/
def dispatchOf (inst : Instance) (operation : String) (url : JsVal) (config : JsVal) :
    Dispatch :=
  if inst.isWasmMode then .onLocal operation url config
  else .onHttp inst.endpoint_url (buildRequestBody inst operation url config)

/-- scrape up to its dispatch decision (bless-crawl.ts lines 554-572):
URL guard, option validation, then local or HTTP dispatch. -/
def scrapePrepare (inst : Instance) (url : JsVal) (options : JsVal) :
    Except BCError Dispatch :=
  if !urlOk url then .error urlGuardError
  else
    match validateScrapeOptions options with
    | .error e => .error e
    | .ok validated => .ok (dispatchOf inst "scrape" url validated)

/-- Removes the listed keys from a field list (object rest pattern). -/
def removeKeys : List (String × JsVal) → List String → List (String × JsVal)
  | [], _ => []
  | p :: fs, ks => if ks.contains p.1 then removeKeys fs ks else p :: removeKeys fs ks

/-- The map-specific option keys destructured by map. -/
def MapKeys : List String := ["link_types", "base_url", "filter_extensions"]

/-- The crawl-specific option keys destructured by crawl. -/
def CrawlKeys : List String :=
  ["limit", "max_depth", "exclude_paths", "include_paths", "follow_external",
   "delay_between_requests", "parallel_requests"]

/-- JavaScript spread merge \x7b...a, ...b\x7d on field lists: a's keys
first (with b's value on collision), then b's remaining keys. -/
def spreadFields (a b : List (String × JsVal)) : List (String × JsVal) :=
  a.map (fun p => match findVal b p.1 with | some w => (p.1, w) | none => p)
    ++ removeKeys b (a.map Prod.fst)

/-- Spread merge of two object values. -/
def spreadMerge (a b : JsVal) : JsVal := .obj (spreadFields (objFields a) (objFields b))

/-- The rest object of map's destructuring: options minus the three
map-specific keys. -/
def mapScrapeHalf (options : JsVal) : JsVal :=
  .obj (removeKeys (objFields options) MapKeys)

/-- The mapOptions literal rebuilt by map from the destructured fields:
all three keys present, each possibly undefined. -/
def mapOpHalf (options : JsVal) : JsVal :=
  .obj
    [("link_types", jsGet options "link_types"),
     ("base_url", jsGet options "base_url"),
     ("filter_extensions", jsGet options "filter_extensions")]

/-- The rest object of crawl's destructuring: options minus the seven
crawl-specific keys. -/
def crawlScrapeHalf (options : JsVal) : JsVal :=
  .obj (removeKeys (objFields options) CrawlKeys)

/-- The crawlOptions literal rebuilt by crawl from the destructured
fields: all seven keys present, each possibly undefined. -/
def crawlOpHalf (options : JsVal) : JsVal :=
  .obj
    [("limit", jsGet options "limit"),
     ("max_depth", jsGet options "max_depth"),
     ("exclude_paths", jsGet options "exclude_paths"),
     ("include_paths", jsGet options "include_paths"),
     ("follow_external", jsGet options "follow_external"),
     ("delay_between_requests", jsGet options "delay_between_requests"),
     ("parallel_requests", jsGet options "parallel_requests")]

/-- map up to its dispatch decision (bless-crawl.ts lines 591-619):
URL guard, destructuring split into map and scrape halves, independent
validation (scrape first), spread recombination, then dispatch. -/
def mapPrepare (inst : Instance) (url : JsVal) (options : JsVal) :
    Except BCError Dispatch :=
  if !urlOk url then .error urlGuardError
  else
    match validateScrapeOptions (mapScrapeHalf options) with
    | .error e => .error e
    | .ok vScrape =>
      match validateMapOptions (mapOpHalf options) with
      | .error e => .error e
      | .ok vMap => .ok (dispatchOf inst "map" url (spreadMerge vScrape vMap))

/-- crawl up to its dispatch decision (bless-crawl.ts lines 640-686):
URL guard, destructuring split into crawl and scrape halves, independent
validation (scrape first), spread recombination, then dispatch. -/
def crawlPrepare (inst : Instance) (url : JsVal) (options : JsVal) :
    Except BCError Dispatch :=
  if !urlOk url then .error urlGuardError
  else
    match validateScrapeOptions (crawlScrapeHalf options) with
    | .error e => .error e
    | .ok vScrape =>
      match validateCrawlOptions (crawlOpHalf options) with
      | .error e => .error e
      | .ok vCrawl => .ok (dispatchOf inst "crawl" url (spreadMerge vScrape vCrawl))

/-- Lookup of a field validator in a schema. -/
def findCheck : List (String × FieldCheck) → String → Option FieldCheck
  | [], _ => none
  | (k, c) :: fs, key => if k = key then some c else findCheck fs key

theorem jsGet_obj (fs : List (String × JsVal)) (k : String) :
    jsGet (.obj fs) k = (findVal fs k).getD .undefined := rfl

theorem findVal_append (xs ys : List (String × JsVal)) (k : String) :
    findVal (xs ++ ys) k =
      match findVal xs k with
      | some v => some v
      | none => findVal ys k := by
  induction xs with
  | nil => rfl
  | cons p xs ih =>
    rcases p with ⟨k0, v0⟩
    by_cases h : k0 = k
    · simp [findVal, h]
    · simp [findVal, h, ih]

theorem findVal_removeKeys (b : List (String × JsVal)) (ks : List String) (k : String) :
    findVal (removeKeys b ks) k = if k ∈ ks then none else findVal b k := by
  induction b with
  | nil => simp [removeKeys, findVal]
  | cons p b ih =>
    rcases p with ⟨k0, v0⟩
    by_cases hc : k0 ∈ ks
    · by_cases h : k0 = k
      · subst h; simp [removeKeys, hc, ih]
      · simp [removeKeys, hc, findVal, h, ih]
    · by_cases h : k0 = k
      · subst h; simp [removeKeys, hc, findVal]
      · simp [removeKeys, hc, findVal, h, ih]

theorem findVal_none_not_mem (a : List (String × JsVal)) (k : String)
    (h : findVal a k = none) : k ∉ a.map Prod.fst := by
  induction a with
  | nil => simp
  | cons p a ih =>
    rcases p with ⟨k0, v0⟩
    by_cases hk : k0 = k
    · subst hk; simp [findVal] at h
    · simp only [findVal, if_neg hk] at h
      simpa [hk, Ne.symm hk] using ih h

theorem findVal_some_mem (a : List (String × JsVal)) (k : String) (v : JsVal)
    (h : findVal a k = some v) : k ∈ a.map Prod.fst := by
  induction a with
  | nil => simp [findVal] at h
  | cons p a ih =>
    rcases p with ⟨k0, v0⟩
    by_cases hk : k0 = k
    · subst hk; simp
    · simp only [findVal, if_neg hk] at h
      simp [ih h]

theorem findVal_mapover (a b : List (String × JsVal)) (k : String) :
    findVal (a.map fun p => match findVal b p.1 with | some w => (p.1, w) | none => p) k
      = match findVal a k with
        | some v => some ((findVal b k).getD v)
        | none => none := by
  induction a with
  | nil => rfl
  | cons p a ih =>
    rcases p with ⟨k0, v0⟩
    by_cases h : k0 = k
    · subst h
      cases hb : findVal b k0 with
      | none => simp [findVal, hb]
      | some w => simp [findVal, hb]
    · cases hb : findVal b k0 with
      | none => simp [findVal, h, hb, ih]
      | some w => simp [findVal, h, hb, ih]

theorem findVal_spread (a b : List (String × JsVal)) (k : String) :
    findVal (spreadFields a b) k =
      match findVal a k with
      | some v => some ((findVal b k).getD v)
      | none => findVal b k := by
  rw [spreadFields, findVal_append, findVal_mapover, findVal_removeKeys]
  cases h : findVal a k with
  | none => simp [findVal_none_not_mem a k h]
  | some v => simp [findVal_some_mem a k v h]

theorem findCheck_mem (schema : List (String × FieldCheck)) (k : String) (c : FieldCheck)
    (h : findCheck schema k = some c) : k ∈ schema.map Prod.fst := by
  induction schema with
  | nil => simp [findCheck] at h
  | cons p schema ih =>
    rcases p with ⟨k0, c0⟩
    by_cases hk : k0 = k
    · subst hk; simp
    · simp only [findCheck, if_neg hk] at h
      simp [ih h]

theorem findCheck_none (schema : List (String × FieldCheck)) (k : String)
    (h : k ∉ schema.map Prod.fst) : findCheck schema k = none := by
  cases hc : findCheck schema k with
  | none => rfl
  | some c => exact absurd (findCheck_mem schema k c hc) h

theorem runFields_issues_nil (input : List (String × JsVal))
    (schema : List (String × FieldCheck))
    (h : ∀ p ∈ schema, ∃ w, p.2 ((findVal input p.1).getD .undefined) = .ok w) :
    (runFields input schema).1 = [] := by
  induction schema with
  | nil => rfl
  | cons p schema ih =>
    rcases p with ⟨k, c⟩
    obtain ⟨w, hw⟩ := h (k, c) (by simp)
    have hw2 : c ((findVal input k).getD .undefined) = .ok w := hw
    have ht := ih (fun q hq => h q (by simp [hq]))
    simp only [runFields, hw2]
    split <;> simpa using ht

theorem runFields_keys_none (input : List (String × JsVal))
    (schema : List (String × FieldCheck)) (k : String)
    (h : findCheck schema k = none) :
    findVal (runFields input schema).2 k = none := by
  induction schema with
  | nil => rfl
  | cons p schema ih =>
    rcases p with ⟨k0, c0⟩
    have hne : ¬(k0 = k) := by
      intro hh; simp [findCheck, hh] at h
    have h2 : findCheck schema k = none := by
      simpa [findCheck, hne] using h
    cases hc : c0 ((findVal input k0).getD .undefined) with
    | ok w =>
      simp only [runFields, hc]
      split
      · simp only [findVal, if_neg hne]
        exact ih h2
      · exact ih h2
    | error es =>
      simp only [runFields, hc]
      exact ih h2

theorem runFields_out_keys (input : List (String × JsVal))
    (schema : List (String × FieldCheck)) :
    ∀ p ∈ (runFields input schema).2, p.1 ∈ schema.map Prod.fst := by
  induction schema with
  | nil => simp [runFields]
  | cons q schema ih =>
    rcases q with ⟨k, c⟩
    intro p hp
    cases hc : c ((findVal input k).getD .undefined) with
    | ok w =>
      simp only [runFields, hc] at hp
      split at hp
      · rcases List.mem_cons.mp hp with hh | hh
        · simp [hh]
        · simp [ih p hh]
      · simp [ih p hp]
    | error es =>
      simp only [runFields, hc] at hp
      simp [ih p hp]

theorem runFields_roundtrip (input : List (String × JsVal))
    (schema : List (String × FieldCheck))
    (hnd : (schema.map Prod.fst).Nodup)
    (h : ∀ p ∈ schema, ∃ w, p.2 ((findVal input p.1).getD .undefined) = .ok w ∧
      canonV w = canonV ((findVal input p.1).getD .undefined)) :
    ∀ k c, findCheck schema k = some c →
      canonV ((findVal (runFields input schema).2 k).getD .undefined)
        = canonV ((findVal input k).getD .undefined) := by
  induction schema with
  | nil => intro k c hc; simp [findCheck] at hc
  | cons p schema ih =>
    rcases p with ⟨k0, c0⟩
    have hnd0 : k0 ∉ schema.map Prod.fst := by
      simp only [List.map_cons, List.nodup_cons] at hnd; exact hnd.1
    have hndr : (schema.map Prod.fst).Nodup := by
      simp only [List.map_cons, List.nodup_cons] at hnd; exact hnd.2
    intro k c hk
    obtain ⟨w0, hw0, hcw0⟩ := h (k0, c0) (by simp)
    have hw2 : c0 ((findVal input k0).getD .undefined) = .ok w0 := hw0
    have hcw2 : canonV w0 = canonV ((findVal input k0).getD .undefined) := hcw0
    by_cases hkk : k0 = k
    · subst hkk
      simp only [runFields, hw2]
      split
      · simpa [findVal] using hcw2
      · next hcond =>
          have hw0u : isUndefined w0 = true := by
            cases hu : isUndefined w0 with
            | true => rfl
            | false => simp [hu] at hcond
          have habs : (findVal input k0).isSome = false := by
            cases ha : (findVal input k0).isSome with
            | false => rfl
            | true => simp [hw0u, ha] at hcond
          have hwu : w0 = .undefined := by
            cases w0 <;> first | rfl | simp [isUndefined] at hw0u
          have hin : findVal input k0 = none := by
            cases hfi : findVal input k0 with
            | none => rfl
            | some v => rw [hfi] at habs; simp at habs
          have hout : findVal (runFields input schema).2 k0 = none :=
            runFields_keys_none input schema k0 (findCheck_none schema k0 hnd0)
          rw [hout, hin]
    · have h2 : findCheck schema k = some c := by
        simpa [findCheck, hkk] using hk
      have htail := ih hndr (fun q hq => h q (by simp [hq])) k c h2
      simp only [runFields, hw2]
      split
      · simp only [findVal, if_neg hkk]
        exact htail
      · exact htail

theorem runFields_error_mem (input : List (String × JsVal))
    (schema : List (String × FieldCheck)) (k : String) (c : FieldCheck)
    (i : Issue) (is : List Issue)
    (hfc : findCheck schema k = some c)
    (hc : c ((findVal input k).getD .undefined) = .error (i :: is)) :
    (⟨k :: i.path, i.message⟩ : Issue) ∈ (runFields input schema).1 := by
  induction schema with
  | nil => simp [findCheck] at hfc
  | cons p schema ih =>
    rcases p with ⟨k0, c0⟩
    by_cases hkk : k0 = k
    · subst hkk
      have hcc : c0 = c := by simpa [findCheck] using hfc
      subst hcc
      simp only [runFields, hc]
      apply List.mem_append_left
      exact List.mem_map.mpr ⟨i, List.mem_cons_self i is, rfl⟩
    · have h2 : findCheck schema k = some c := by
        simpa [findCheck, hkk] using hfc
      cases hc0 : c0 ((findVal input k0).getD .undefined) with
      | ok w =>
        simp only [runFields, hc0]
        split
        · exact ih h2
        · exact ih h2
      | error es =>
        simp only [runFields, hc0]
        exact List.mem_append_right _ (ih h2)

theorem removeKeys_subset (b : List (String × JsVal)) (ks : List String) :
    ∀ p ∈ removeKeys b ks, p ∈ b := by
  induction b with
  | nil => simp [removeKeys]
  | cons q b ih =>
    intro p hp
    by_cases hq : ks.contains q.1
    · simp only [removeKeys, if_pos hq] at hp
      simp [ih p hp]
    · simp only [removeKeys, if_neg hq] at hp
      rcases List.mem_cons.mp hp with hh | hh
      · simp [hh]
      · simp [ih p hh]

theorem spreadFields_keys (a b : List (String × JsVal)) :
    ∀ p ∈ spreadFields a b, p.1 ∈ a.map Prod.fst ++ b.map Prod.fst := by
  intro p hp
  rw [spreadFields] at hp
  rcases List.mem_append.mp hp with hh | hh
  · rcases List.mem_map.mp hh with ⟨q, hq, hqe⟩
    have hpq : p.1 = q.1 := by
      cases hfv : findVal b q.1 with
      | none => rw [hfv] at hqe; rw [← hqe]
      | some w => rw [hfv] at hqe; rw [← hqe]
    rw [hpq]
    exact List.mem_append_left _ (List.mem_map.mpr ⟨q, hq, rfl⟩)
  · exact List.mem_append_right _
      (List.mem_map.mpr ⟨p, removeKeys_subset b _ p hh, rfl⟩)

theorem validateWith_ok (pre : String) (schema : List (String × FieldCheck)) (o v : JsVal)
    (h : validateWith pre schema o = .ok v) :
    ∃ fs, o = .obj fs ∧ (runFields fs schema).1 = [] ∧ v = .obj (runFields fs schema).2 := by
  unfold validateWith at h
  cases hr : runSchema schema o with
  | error is => rw [hr] at h; cases h
  | ok w =>
    rw [hr] at h
    injection h with hvw
    subst hvw
    cases o with
    | obj fs =>
      simp only [runSchema] at hr
      cases hl : (runFields fs schema).1 with
      | nil =>
        rw [hl] at hr
        refine ⟨fs, rfl, hl, ?_⟩
        injection hr with hh
        rw [← hh]
      | cons a as => rw [hl] at hr; cases hr
    | undefined => simp [runSchema] at hr
    | null => simp [runSchema] at hr
    | bool b => simp [runSchema] at hr
    | num n => simp [runSchema] at hr
    | str s => simp [runSchema] at hr
    | arr xs => simp [runSchema] at hr

theorem validateWith_ok_intro (pre : String) (schema : List (String × FieldCheck))
    (fs : List (String × JsVal)) (h : (runFields fs schema).1 = []) :
    validateWith pre schema (.obj fs) = .ok (.obj (runFields fs schema).2) := by
  simp only [validateWith, runSchema, h]

theorem validateWith_error (pre : String) (schema : List (String × FieldCheck))
    (fs : List (String × JsVal)) (a : Issue) (as : List Issue)
    (h : (runFields fs schema).1 = a :: as) :
    validateWith pre schema (.obj fs) =
      .error ⟨pre ++ formatIssues (a :: as), some (.str "VALIDATION_ERROR"),
        some (.issues (a :: as)), some (a :: as)⟩ := by
  simp only [validateWith, runSchema, h]

/-- C5: for scrape, map and crawl alike, a url argument that is not a
string or trims to the empty string makes the call reject with the
codeless urlGuardError. The options arguments are arbitrary (possibly
invalid), showing the guard fires before option validation; the result
being an error means no dispatch (no local call, no HTTP request) is
produced; and the absent code distinguishes the guard from a
schema-validation failure, which carries code VALIDATION_ERROR. -/
theorem c5_urlGuard (inst : Instance) (url : JsVal) (o1 o2 o3 : JsVal)
    (h : urlOk url = false) :
    scrapePrepare inst url o1 = .error urlGuardError ∧
    mapPrepare inst url o2 = .error urlGuardError ∧
    crawlPrepare inst url o3 = .error urlGuardError ∧
    urlGuardError.code = none ∧
    urlGuardError.code ≠ some (.str "VALIDATION_ERROR") :=
  ⟨by simp [scrapePrepare, h], by simp [mapPrepare, h], by simp [crawlPrepare, h],
   rfl, by simp [urlGuardError]⟩

/-- Witness for c5_urlGuard: map('', \x7b\x7d) and friends reject with
the codeless guard error even with an out-of-bounds option present. -/
theorem c5_urlGuard_witness :
    scrapePrepare ⟨false, defaultEndpointUrl, defaultFunctionId⟩ (.str "")
        (.obj [("timeout", .num 1)]) = .error urlGuardError ∧
    mapPrepare ⟨false, defaultEndpointUrl, defaultFunctionId⟩ (.str " ") (.obj [])
      = .error urlGuardError ∧
    crawlPrepare ⟨false, defaultEndpointUrl, defaultFunctionId⟩ (.num 7) (.obj [])
      = .error urlGuardError ∧
    urlGuardError.code = none ∧
    urlGuardError.code ≠ some (.str "VALIDATION_ERROR") := by
  refine ⟨(c5_urlGuard _ (.str "") _ (.obj []) (.obj []) rfl).1, ?_, ?_, rfl, by simp [urlGuardError]⟩
  · exact (c5_urlGuard ⟨false, defaultEndpointUrl, defaultFunctionId⟩ (.str " ")
      (.obj []) (.obj []) (.obj []) rfl).2.1
  · exact (c5_urlGuard ⟨false, defaultEndpointUrl, defaultFunctionId⟩ (.num 7)
      (.obj []) (.obj []) (.obj []) rfl).2.2.1

/-- C7: in HTTP mode (isWasmMode false), once the URL guard and option
validation pass, each of the three operations commits to exactly one
POST to the instance's endpoint_url whose body is
\x7bfunction_id, method: "blessnet.wasm",
config: \x7bpermissions: [url], stdin\x7d\x7d with stdin the JSON
stringification of \x7boperation, url, config\x7d, config being the
validated (for map/crawl: combined) options. -/
theorem c7_requestShape (inst : Instance) (url : JsVal)
    (hw : inst.isWasmMode = false) (hu : urlOk url = true) :
    (∀ options cfg, validateScrapeOptions options = .ok cfg →
      scrapePrepare inst url options = .ok (.onHttp inst.endpoint_url
        ⟨inst.function_id, "blessnet.wasm",
         ⟨[url], jsonStringify (stdinDoc "scrape" url cfg)⟩⟩)) ∧
    (∀ options c1 c2, validateScrapeOptions (mapScrapeHalf options) = .ok c1 →
      validateMapOptions (mapOpHalf options) = .ok c2 →
      mapPrepare inst url options = .ok (.onHttp inst.endpoint_url
        ⟨inst.function_id, "blessnet.wasm",
         ⟨[url], jsonStringify (stdinDoc "map" url (spreadMerge c1 c2))⟩⟩)) ∧
    (∀ options c1 c2, validateScrapeOptions (crawlScrapeHalf options) = .ok c1 →
      validateCrawlOptions (crawlOpHalf options) = .ok c2 →
      crawlPrepare inst url options = .ok (.onHttp inst.endpoint_url
        ⟨inst.function_id, "blessnet.wasm",
         ⟨[url], jsonStringify (stdinDoc "crawl" url (spreadMerge c1 c2))⟩⟩)) := by
  refine ⟨?_, ?_, ?_⟩
  · intro options cfg hv
    simp [scrapePrepare, hu, hv, dispatchOf, hw, buildRequestBody]
  · intro options c1 c2 h1 h2
    simp [mapPrepare, hu, h1, h2, dispatchOf, hw, buildRequestBody]
  · intro options c1 c2 h1 h2
    simp [crawlPrepare, hu, h1, h2, dispatchOf, hw, buildRequestBody]

/-- Witness for c7_requestShape at a concrete instance and call. -/
theorem c7_requestShape_witness :
    scrapePrepare ⟨false, defaultEndpointUrl, defaultFunctionId⟩
        (.str "https://example.com") (.obj [("timeout", .num 20000)])
      = .ok (.onHttp defaultEndpointUrl
        ⟨defaultFunctionId, "blessnet.wasm",
         ⟨[.str "https://example.com"],
          jsonStringify (stdinDoc "scrape" (.str "https://example.com")
            (.obj [("timeout", .num 20000)]))⟩⟩) :=
  (c7_requestShape ⟨false, defaultEndpointUrl, defaultFunctionId⟩
    (.str "https://example.com") rfl rfl).1 (.obj [("timeout", .num 20000)])
    (.obj [("timeout", .num 20000)]) rfl

/-- C10: a url string that passes the guard but is untrimmed (has
leading or trailing whitespace) is forwarded onward verbatim: each
operation dispatches with the original string, which in HTTP mode is
both the sole element of the permissions list and the url field of the
stdin document, and in wasm mode the url handed to the local handle. -/
theorem c10_untrimmedUrl (inst : Instance) (s : String)
    (hs : jsTrim s ≠ "") (_hws : s ≠ jsTrim s) :
    (∀ options cfg, validateScrapeOptions options = .ok cfg →
      scrapePrepare inst (.str s) options = .ok (dispatchOf inst "scrape" (.str s) cfg)) ∧
    (∀ options c1 c2, validateScrapeOptions (mapScrapeHalf options) = .ok c1 →
      validateMapOptions (mapOpHalf options) = .ok c2 →
      mapPrepare inst (.str s) options
        = .ok (dispatchOf inst "map" (.str s) (spreadMerge c1 c2))) ∧
    (∀ options c1 c2, validateScrapeOptions (crawlScrapeHalf options) = .ok c1 →
      validateCrawlOptions (crawlOpHalf options) = .ok c2 →
      crawlPrepare inst (.str s) options
        = .ok (dispatchOf inst "crawl" (.str s) (spreadMerge c1 c2))) ∧
    (∀ op cfg, inst.isWasmMode = true →
      dispatchOf inst op (.str s) cfg = .onLocal op (.str s) cfg) ∧
    (∀ op cfg, inst.isWasmMode = false →
      dispatchOf inst op (.str s) cfg = .onHttp inst.endpoint_url
        ⟨inst.function_id, "blessnet.wasm",
         ⟨[JsVal.str s], jsonStringify (JsVal.obj
           [("operation", .str op), ("url", .str s), ("config", cfg)])⟩⟩) := by
  have hu : urlOk (.str s) = true := by simp [urlOk, hs]
  refine ⟨?_, ?_, ?_, ?_, ?_⟩
  · intro options cfg hv; simp [scrapePrepare, hu, hv]
  · intro options c1 c2 h1 h2; simp [mapPrepare, hu, h1, h2]
  · intro options c1 c2 h1 h2; simp [crawlPrepare, hu, h1, h2]
  · intro op cfg hw; simp [dispatchOf, hw]
  · intro op cfg hw; simp [dispatchOf, hw, buildRequestBody, stdinDoc]

/-- Witness for c10_untrimmedUrl: " https://example.com " is forwarded
with its surrounding spaces intact. -/
theorem c10_untrimmedUrl_witness :
    scrapePrepare ⟨false, defaultEndpointUrl, defaultFunctionId⟩
        (.str " https://example.com ") (.obj [])
      = .ok (dispatchOf ⟨false, defaultEndpointUrl, defaultFunctionId⟩ "scrape"
          (.str " https://example.com ") (.obj [])) ∧
    dispatchOf ⟨false, defaultEndpointUrl, defaultFunctionId⟩ "scrape"
        (.str " https://example.com ") (.obj [])
      = .onHttp defaultEndpointUrl
        ⟨defaultFunctionId, "blessnet.wasm",
         ⟨[JsVal.str " https://example.com "], jsonStringify (JsVal.obj
           [("operation", .str "scrape"), ("url", .str " https://example.com "),
            ("config", .obj [])])⟩⟩ := by
  have h := c10_untrimmedUrl ⟨false, defaultEndpointUrl, defaultFunctionId⟩
    " https://example.com " (by decide) (by decide)
  exact ⟨h.1 (.obj []) (.obj []) rfl, h.2.2.2.2 "scrape" (.obj []) rfl⟩

/-- C1: for every reply body that is a JSON object whose code field is
the string "200" but whose results field is missing, not an array, or an
empty array, the decode rejects with NO_RESULTS_ERROR and the full reply
as cause — for every JSON.parse behaviour, hence in particular even when
the reply carries a stdout string that would parse successfully in a
later step: the earlier check preempts the later ones. -/
theorem c1_noResults (parse : String → Except String JsVal) (fs : List (String × JsVal))
    (hcode : jsGet (.obj fs) "code" = .str "200")
    (hres : ∀ x xs, jsGet (.obj fs) "results" ≠ .arr (x :: xs)) :
    decodeBody parse (.obj fs) =
      .error (bcErr "No results returned from function execution" "NO_RESULTS_ERROR"
        (some (.json (.obj fs)))) := by
  have hm : (match jsGet (.obj fs) "results" with
      | JsVal.arr (_ :: _) => true
      | _ => false) = false := by
    cases hr : jsGet (.obj fs) "results" with
    | arr xs =>
      cases xs with
      | nil => rfl
      | cons x t => exact absurd hr (hres x t)
    | undefined => rfl
    | null => rfl
    | bool b => rfl
    | num n => rfl
    | str t => rfl
    | obj g => rfl
  unfold decodeBody
  rw [hcode]
  simp [JsVal.truthy, jsTypeofObject, jsEqStr, hm]

/-- Witness for c1_noResults: a reply with code "200", no results field,
and a stdout string that the ambient parse function would accept. -/
theorem c1_noResults_witness :
    decodeBody (fun _ => .ok (.obj [("success", .bool true), ("data", .obj [])]))
        (.obj [("code", .str "200"), ("stdout", .str "ok")]) =
      .error (bcErr "No results returned from function execution" "NO_RESULTS_ERROR"
        (some (.json (.obj [("code", .str "200"), ("stdout", .str "ok")])))) :=
  c1_noResults (fun _ => .ok (.obj [("success", .bool true), ("data", .obj [])]))
    [("code", .str "200"), ("stdout", .str "ok")] rfl
    (fun x xs h => by
      rw [show jsGet (.obj [("code", .str "200"), ("stdout", .str "ok")]) "results"
        = JsVal.undefined from rfl] at h
      exact JsVal.noConfusion h)

theorem decode_to_stdout (parse : String → Except String JsVal)
    (fs : List (String × JsVal)) (r0 : JsVal) (rest : List JsVal)
    (hcode : jsGet (.obj fs) "code" = .str "200")
    (hres : jsGet (.obj fs) "results" = .arr (r0 :: rest))
    (hfr : r0.truthy = true)
    (hresult : (jsGet r0 "result").truthy = true)
    (hexit : jsGet (jsGet r0 "result") "exit_code" = .num 0) :
    decodeBody parse (.obj fs) = decodeStdout parse (jsGet r0 "result") := by
  unfold decodeBody
  rw [hcode, hres]
  simp only [jsIndex0, hfr, hresult, hexit]
  simp [JsVal.truthy, jsTypeofObject, jsEqStr, jsEqNum]

/-- The concrete reply used to refute C6 as stated: it passes decode
steps 1-6 and carries stdout = "" — a present, string-typed stdout on
which JSON parsing fails. -/
def c6Reply : JsVal :=
  .obj [("code", .str "200"),
        ("results", .arr [.obj [("result",
          .obj [("exit_code", .num 0), ("stdout", .str "")])]])]

/-- A JSON.parse model that fails on every string, as real JSON.parse
does on the empty string. -/
def c6Parse : String → Except String JsVal :=
  fun _ => .error "Unexpected end of JSON input"

/-- Counterexample to C6 as stated: the reply's stdout is the string ""
(so neither missing nor a non-string), JSON parsing of it fails, yet the
decoder raises STDOUT_FORMAT_ERROR — not the STDOUT_PARSE_ERROR the
claim requires for a string on which parsing fails, and a
STDOUT_FORMAT_ERROR outside the claimed missing-or-not-a-string cases. -/
theorem c6_counterexample :
    jsGet (jsGet (jsIndex0 (jsGet c6Reply "results")) "result") "stdout" = .str "" ∧
    c6Parse "" = .error "Unexpected end of JSON input" ∧
    decodeBody c6Parse c6Reply =
      .error (bcErr "Invalid stdout: expected non-empty string" "STDOUT_FORMAT_ERROR"
        (some (.json (.obj [("exit_code", .num 0), ("stdout", .str "")])))) ∧
    ("STDOUT_FORMAT_ERROR" : String) ≠ "STDOUT_PARSE_ERROR" :=
  ⟨rfl, rfl, rfl, by decide⟩

/-- C6 amended: for every reply passing decode steps 1-6, the decoder
raises STDOUT_FORMAT_ERROR whenever results[0].result.stdout is
missing, not a string, or the EMPTY string; and for every non-empty
stdout string on which JSON parsing fails it raises STDOUT_PARSE_ERROR
with cause \x7bstdout, parseError\x7d. -/
theorem c6_amended (parse : String → Except String JsVal)
    (fs : List (String × JsVal)) (r0 : JsVal) (rest : List JsVal)
    (hcode : jsGet (.obj fs) "code" = .str "200")
    (hres : jsGet (.obj fs) "results" = .arr (r0 :: rest))
    (hfr : r0.truthy = true)
    (hresult : (jsGet r0 "result").truthy = true)
    (hexit : jsGet (jsGet r0 "result") "exit_code" = .num 0) :
    ((¬ ∃ s, jsGet (jsGet r0 "result") "stdout" = .str s ∧ s ≠ "") →
      decodeBody parse (.obj fs) =
        .error (bcErr "Invalid stdout: expected non-empty string" "STDOUT_FORMAT_ERROR"
          (some (.json (jsGet r0 "result"))))) ∧
    (∀ s perr, jsGet (jsGet r0 "result") "stdout" = .str s → s ≠ "" →
      parse s = .error perr →
      decodeBody parse (.obj fs) =
        .error (bcErr ("Failed to parse stdout as JSON: " ++ perr) "STDOUT_PARSE_ERROR"
          (some (.stdoutPair s perr)))) := by
  have hred := decode_to_stdout parse fs r0 rest hcode hres hfr hresult hexit
  constructor
  · intro hbad
    rw [hred]
    unfold decodeStdout
    cases hst : jsGet (jsGet r0 "result") "stdout" with
    | str s =>
      have hs : s = "" := by
        by_contra hne
        exact hbad ⟨s, hst, hne⟩
      subst hs
      simp
    | undefined => rfl
    | null => rfl
    | bool b => rfl
    | num n => rfl
    | arr xs => rfl
    | obj g => rfl
  · intro s perr hst hne hparse
    rw [hred]
    unfold decodeStdout
    rw [hst]
    simp [hne, hparse]

/-- Witness for c6_amended: a reply whose stdout is the non-empty string
"oops" on which parsing fails yields STDOUT_PARSE_ERROR with the
\x7bstdout, parseError\x7d cause. -/
theorem c6_amended_witness :
    decodeBody (fun _ => .error "boom")
        (.obj [("code", .str "200"),
               ("results", .arr [.obj [("result",
                 .obj [("exit_code", .num 0), ("stdout", .str "oops")])]])]) =
      .error (bcErr ("Failed to parse stdout as JSON: " ++ "boom") "STDOUT_PARSE_ERROR"
        (some (.stdoutPair "oops" "boom"))) :=
  (c6_amended (fun _ => .error "boom")
    [("code", .str "200"),
     ("results", .arr [.obj [("result",
       .obj [("exit_code", .num 0), ("stdout", .str "oops")])]])]
    (.obj [("result", .obj [("exit_code", .num 0), ("stdout", .str "oops")])]) []
    rfl rfl rfl rfl rfl).2 "oops" "boom" rfl (by decide) rfl

/-- Counterexample to C8 as stated: an explicitly provided (but empty)
endpoint_url config value is skipped by the JavaScript || chain, and the
environment override wins instead. -/
theorem c8_counterexample :
    mkInstance false (.obj [("endpoint_url", .str "")]) true
        (some "http://env.example") none
      = .ok ⟨false, "http://env.example", defaultFunctionId⟩ ∧
    ("http://env.example" : String) ≠ "" :=
  ⟨rfl, by decide⟩

/-- C8 amended: the constructor resolves endpoint_url and function_id by
resolveSetting, whose precedence is: the constructor config value when
it is a non-empty string, else the environment override when process is
defined and the variable is set to a non-empty string, else the built-in
default (empty strings are falsy to || and fall through). -/
theorem c8_amended :
    (∀ wasm config pd ee ef inst,
      mkInstance wasm config pd ee ef = .ok inst →
      inst.endpoint_url
        = resolveSetting (asOptString (jsGet config "endpoint_url")) pd ee
            defaultEndpointUrl ∧
      inst.function_id
        = resolveSetting (asOptString (jsGet config "function_id")) pd ef
            defaultFunctionId) ∧
    (∀ pd ev d s, s ≠ "" → resolveSetting (some s) pd ev d = s) ∧
    (∀ c pd e d, (c = none ∨ c = some "") → pd = true → e ≠ "" →
      resolveSetting c pd (some e) d = e) ∧
    (∀ c pd ev d, (c = none ∨ c = some "") →
      (pd = false ∨ ev = none ∨ ev = some "") → resolveSetting c pd ev d = d) := by
  refine ⟨?_, ?_, ?_, ?_⟩
  · intro wasm config pd ee ef inst h
    unfold mkInstance at h
    cases hv : validateConfig config with
    | error e => rw [hv] at h; cases h
    | ok w =>
      rw [hv] at h
      injection h with hh
      rw [← hh]
      exact ⟨rfl, rfl⟩
  · intro pd ev d s hs
    simp [resolveSetting, hs]
  · intro c pd e d hc hpd he
    rcases hc with rfl | rfl <;> simp [resolveSetting, hpd, he]
  · intro c pd ev d hc hd
    rcases hc with rfl | rfl <;>
      rcases hd with rfl | rfl | rfl <;>
        first
          | (cases pd <;> simp [resolveSetting])
          | simp [resolveSetting]

/-- Witness for c8_amended: the three precedence levels at concrete
values, and the constructor equation at a concrete config. -/
theorem c8_amended_witness :
    resolveSetting (some "http://cfg.example") true (some "http://env.example")
        defaultEndpointUrl = "http://cfg.example" ∧
    resolveSetting (some "") true (some "http://env.example") defaultEndpointUrl
      = "http://env.example" ∧
    resolveSetting none false (some "http://env.example") defaultEndpointUrl
      = defaultEndpointUrl ∧
    (⟨false, defaultEndpointUrl, defaultFunctionId⟩ : Instance).endpoint_url
      = resolveSetting (asOptString (jsGet (.obj []) "endpoint_url")) false none
          defaultEndpointUrl := by
  refine ⟨c8_amended.2.1 true (some "http://env.example") defaultEndpointUrl
      "http://cfg.example" (by decide),
    c8_amended.2.2.1 (some "") true "http://env.example" defaultEndpointUrl
      (Or.inr rfl) rfl (by decide),
    c8_amended.2.2.2 none false (some "http://env.example") defaultEndpointUrl
      (Or.inl rfl) (Or.inl rfl),
    (c8_amended.1 false (.obj []) false none none
      ⟨false, defaultEndpointUrl, defaultFunctionId⟩ rfl).1⟩

/-- The eleven error codes listed in spec section 4.2. -/
def elevenCodes : List String :=
  ["VALIDATION_ERROR", "HTTP_ERROR", "FUNCTION_EXECUTION_ERROR", "NO_RESULTS_ERROR",
   "RESULT_FORMAT_ERROR", "FUNCTION_EXIT_ERROR", "STDOUT_FORMAT_ERROR", "STDOUT_PARSE_ERROR",
   "STDIN_OUTPUT_FORMAT_ERROR", "OPERATION_ERROR", "NO_DATA_ERROR"]

/-- The code values the decode chain actually emits from its own throw
sites: the eleven plus RESPONSE_FORMAT_ERROR. -/
def decodeCodeVocab : List JsVal := ("RESPONSE_FORMAT_ERROR" :: elevenCodes).map JsVal.str

theorem vocab_mem (s : String) (hs : s ∈ "RESPONSE_FORMAT_ERROR" :: elevenCodes) :
    JsVal.str s ∈ decodeCodeVocab := List.mem_map.mpr ⟨s, hs, rfl⟩

theorem decodeStdout_codes (parse : String → Except String JsVal) (res : JsVal) (e : BCError)
    (h : decodeStdout parse res = .error e) :
    ∃ c, e.code = some c ∧
      (c ∈ decodeCodeVocab ∨
       ∃ s out, parse s = .ok out ∧ c = jsGet (jsGet out "error") "code" ∧ c.truthy = true) := by
  simp only [decodeStdout] at h
  split at h
  · next s _ =>
    split at h
    · injection h with hh
      rw [← hh]
      exact ⟨.str "STDOUT_FORMAT_ERROR", rfl, Or.inl (vocab_mem _ (by decide))⟩
    · split at h
      · injection h with hh
        rw [← hh]
        exact ⟨.str "STDOUT_PARSE_ERROR", rfl, Or.inl (vocab_mem _ (by decide))⟩
      · next out heq =>
        split at h
        · injection h with hh
          rw [← hh]
          exact ⟨.str "STDIN_OUTPUT_FORMAT_ERROR", rfl, Or.inl (vocab_mem _ (by decide))⟩
        · split at h
          · injection h with hh
            rw [← hh]
            cases hx : (jsGet (jsGet out "error") "code").truthy with
            | true =>
              refine ⟨jsOr (jsGet (jsGet out "error") "code") (.str "OPERATION_ERROR"),
                rfl, Or.inr ⟨s, out, heq, ?_, ?_⟩⟩
              · rw [jsOr, if_pos hx]
              · rw [jsOr, if_pos hx]; exact hx
            | false =>
              refine ⟨jsOr (jsGet (jsGet out "error") "code") (.str "OPERATION_ERROR"),
                rfl, Or.inl ?_⟩
              rw [jsOr, if_neg (by simp [hx])]
              exact vocab_mem _ (by decide)
          · split at h
            · injection h with hh
              rw [← hh]
              exact ⟨.str "NO_DATA_ERROR", rfl, Or.inl (vocab_mem _ (by decide))⟩
            · cases h
  · injection h with hh
    rw [← hh]
    exact ⟨.str "STDOUT_FORMAT_ERROR", rfl, Or.inl (vocab_mem _ (by decide))⟩

theorem decodeBody_codes (parse : String → Except String JsVal) (b : JsVal) (e : BCError)
    (h : decodeBody parse b = .error e) :
    ∃ c, e.code = some c ∧
      (c ∈ decodeCodeVocab ∨
       ∃ s out, parse s = .ok out ∧ c = jsGet (jsGet out "error") "code" ∧ c.truthy = true) := by
  simp only [decodeBody] at h
  split at h
  · injection h with hh
    rw [← hh]
    exact ⟨.str "RESPONSE_FORMAT_ERROR", rfl, Or.inl (vocab_mem _ (by decide))⟩
  · split at h
    · injection h with hh
      rw [← hh]
      exact ⟨.str "FUNCTION_EXECUTION_ERROR", rfl, Or.inl (vocab_mem _ (by decide))⟩
    · split at h
      · injection h with hh
        rw [← hh]
        exact ⟨.str "NO_RESULTS_ERROR", rfl, Or.inl (vocab_mem _ (by decide))⟩
      · split at h
        · injection h with hh
          rw [← hh]
          exact ⟨.str "RESULT_FORMAT_ERROR", rfl, Or.inl (vocab_mem _ (by decide))⟩
        · split at h
          · injection h with hh
            rw [← hh]
            exact ⟨.str "FUNCTION_EXIT_ERROR", rfl, Or.inl (vocab_mem _ (by decide))⟩
          · exact decodeStdout_codes parse _ e h

theorem validateWith_error_code (pre : String) (schema : List (String × FieldCheck))
    (o : JsVal) (e : BCError) (h : validateWith pre schema o = .error e) :
    e.code = some (.str "VALIDATION_ERROR") := by
  unfold validateWith at h
  split at h
  · cases h
  · injection h with hh
    rw [← hh]

/-- Counterexample to C4 as stated: a reply whose body is the JSON value
5 (valid JSON, not an object) makes the decode fail with code
RESPONSE_FORMAT_ERROR, which is not among the eleven codes listed in
spec section 4.2. -/
theorem c4_counterexample :
    makeHttpRequest (fun _ => .error "unused") (.ok ⟨true, 200, "OK", .ok (.num 5)⟩) =
      .error (bcErr "Invalid response format: expected JSON object" "RESPONSE_FORMAT_ERROR"
        none) ∧
    "RESPONSE_FORMAT_ERROR" ∉ elevenCodes :=
  ⟨rfl, by decide⟩

/-- C4 amended: every error on the remote path past the URL guard
carries some code: option-validation failures carry VALIDATION_ERROR,
and every makeHttpRequest failure carries a code drawn from the section
4.2 vocabulary extended with RESPONSE_FORMAT_ERROR — except that when
the parsed stdout reports failure with a truthy code field of its own,
that inner value is passed through verbatim. In particular a reply body
that is not a JSON object yields RESPONSE_FORMAT_ERROR (see the
counterexample), not one of the eleven listed values. -/
theorem c4_amended :
    (∀ parse resp e, makeHttpRequest parse resp = .error e →
      ∃ c, e.code = some c ∧
        (c ∈ decodeCodeVocab ∨
         ∃ s out, parse s = .ok out ∧ c = jsGet (jsGet out "error") "code" ∧
           c.truthy = true)) ∧
    (∀ inst url options e, urlOk url = true →
      scrapePrepare inst url options = .error e →
      e.code = some (.str "VALIDATION_ERROR")) ∧
    (∀ inst url options e, urlOk url = true →
      mapPrepare inst url options = .error e →
      e.code = some (.str "VALIDATION_ERROR")) ∧
    (∀ inst url options e, urlOk url = true →
      crawlPrepare inst url options = .error e →
      e.code = some (.str "VALIDATION_ERROR")) := by
  refine ⟨?_, ?_, ?_, ?_⟩
  · intro parse resp e h
    cases resp with
    | error e0 =>
      simp only [makeHttpRequest] at h
      injection h with hh
      rw [← hh]
      exact ⟨.str "HTTP_ERROR", rfl, Or.inl (vocab_mem _ (by decide))⟩
    | ok r =>
      simp only [makeHttpRequest] at h
      split at h
      · injection h with hh
        rw [← hh]
        exact ⟨.str "HTTP_ERROR", rfl, Or.inl (vocab_mem _ (by decide))⟩
      · split at h
        · injection h with hh
          rw [← hh]
          exact ⟨.str "HTTP_ERROR", rfl, Or.inl (vocab_mem _ (by decide))⟩
        · next b heq2 =>
          exact decodeBody_codes parse b e h
  · intro inst url options e hu h
    unfold scrapePrepare at h
    rw [hu] at h
    simp only [Bool.not_true, Bool.false_eq_true, if_false] at h
    cases hv : validateScrapeOptions options with
    | error e2 =>
      rw [hv] at h
      injection h with hh
      rw [← hh]
      exact validateWith_error_code _ _ _ _ hv
    | ok w => rw [hv] at h; cases h
  · intro inst url options e hu h
    unfold mapPrepare at h
    rw [hu] at h
    simp only [Bool.not_true, Bool.false_eq_true, if_false] at h
    cases hv : validateScrapeOptions (mapScrapeHalf options) with
    | error e2 =>
      rw [hv] at h
      injection h with hh
      rw [← hh]
      exact validateWith_error_code _ _ _ _ hv
    | ok w =>
      rw [hv] at h
      cases hv2 : validateMapOptions (mapOpHalf options) with
      | error e2 =>
        rw [hv2] at h
        injection h with hh
        rw [← hh]
        exact validateWith_error_code _ _ _ _ hv2
      | ok w2 => rw [hv2] at h; cases h
  · intro inst url options e hu h
    unfold crawlPrepare at h
    rw [hu] at h
    simp only [Bool.not_true, Bool.false_eq_true, if_false] at h
    cases hv : validateScrapeOptions (crawlScrapeHalf options) with
    | error e2 =>
      rw [hv] at h
      injection h with hh
      rw [← hh]
      exact validateWith_error_code _ _ _ _ hv
    | ok w =>
      rw [hv] at h
      cases hv2 : validateCrawlOptions (crawlOpHalf options) with
      | error e2 =>
        rw [hv2] at h
        injection h with hh
        rw [← hh]
        exact validateWith_error_code _ _ _ _ hv2
      | ok w2 => rw [hv2] at h; cases h

/-- Witness for c4_amended: a non-2xx response yields an error whose
code is in the extended vocabulary. -/
theorem c4_amended_witness :
    ∃ c, (bcErr ("HTTP request failed with status " ++ toString (500 : Int) ++ ": " ++
        "Internal Server Error") "HTTP_ERROR" none).code = some c ∧
      (c ∈ decodeCodeVocab ∨
       ∃ s out, (fun (_ : String) => (Except.error "unused" : Except String JsVal)) s
           = .ok out ∧
         c = jsGet (jsGet out "error") "code" ∧ c.truthy = true) :=
  c4_amended.1 (fun _ => .error "unused")
    (.ok ⟨false, 500, "Internal Server Error", .ok .null⟩)
    (bcErr ("HTTP request failed with status " ++ toString (500 : Int) ++ ": " ++
      "Internal Server Error") "HTTP_ERROR" none) rfl

theorem validate_keys (pre : String) (schema : List (String × FieldCheck)) (o v : JsVal)
    (h : validateWith pre schema o = .ok v) :
    ∃ fs, v = .obj fs ∧ ∀ p ∈ fs, p.1 ∈ schema.map Prod.fst := by
  obtain ⟨fsin, _, _, hv⟩ := validateWith_ok pre schema o v h
  exact ⟨_, hv, runFields_out_keys fsin schema⟩

theorem spread_validated_keys (pre1 pre2 : String)
    (s1 s2 : List (String × FieldCheck)) (o1 o2 v1 v2 : JsVal)
    (h1 : validateWith pre1 s1 o1 = .ok v1) (h2 : validateWith pre2 s2 o2 = .ok v2) :
    ∀ p ∈ objFields (spreadMerge v1 v2), p.1 ∈ s1.map Prod.fst ++ s2.map Prod.fst := by
  obtain ⟨f1, _, _, hv1⟩ := validateWith_ok pre1 s1 o1 v1 h1
  obtain ⟨f2, _, _, hv2⟩ := validateWith_ok pre2 s2 o2 v2 h2
  subst hv1
  subst hv2
  intro p hp
  have hk := spreadFields_keys (runFields f1 s1).2 (runFields f2 s2).2 p hp
  rcases List.mem_append.mp hk with hh | hh
  · rcases List.mem_map.mp hh with ⟨q, hq, hqe⟩
    exact List.mem_append_left _ (hqe ▸ runFields_out_keys f1 s1 q hq)
  · rcases List.mem_map.mp hh with ⟨q, hq, hqe⟩
    exact List.mem_append_right _ (hqe ▸ runFields_out_keys f2 s2 q hq)

/-- C9: every validator's output object contains only keys declared in
its target schema (unknown extra fields are silently stripped), and the
combined config map and crawl dispatch — the spread of the two validated
halves — contains only keys declared in the union of the two schemas,
so unknown fields never reach the dispatched config. -/
theorem c9_unknownKeysStripped :
    (∀ o v, validateScrapeOptions o = .ok v →
      ∃ fs, v = .obj fs ∧ ∀ p ∈ fs, p.1 ∈ ScrapeOptionsSchemaL.map Prod.fst) ∧
    (∀ o v, validateMapOptions o = .ok v →
      ∃ fs, v = .obj fs ∧ ∀ p ∈ fs, p.1 ∈ MapOptionsSchemaL.map Prod.fst) ∧
    (∀ o v, validateCrawlOptions o = .ok v →
      ∃ fs, v = .obj fs ∧ ∀ p ∈ fs, p.1 ∈ CrawlOptionsSchemaL.map Prod.fst) ∧
    (∀ o v, validateConfig o = .ok v →
      ∃ fs, v = .obj fs ∧ ∀ p ∈ fs, p.1 ∈ ConfigSchemaL.map Prod.fst) ∧
    (∀ o v1 v2, validateScrapeOptions (mapScrapeHalf o) = .ok v1 →
      validateMapOptions (mapOpHalf o) = .ok v2 →
      ∀ p ∈ objFields (spreadMerge v1 v2),
        p.1 ∈ ScrapeOptionsSchemaL.map Prod.fst ++ MapOptionsSchemaL.map Prod.fst) ∧
    (∀ o v1 v2, validateScrapeOptions (crawlScrapeHalf o) = .ok v1 →
      validateCrawlOptions (crawlOpHalf o) = .ok v2 →
      ∀ p ∈ objFields (spreadMerge v1 v2),
        p.1 ∈ ScrapeOptionsSchemaL.map Prod.fst ++ CrawlOptionsSchemaL.map Prod.fst) := by
  refine ⟨?_, ?_, ?_, ?_, ?_, ?_⟩
  · intro o v h; exact validate_keys _ _ o v h
  · intro o v h; exact validate_keys _ _ o v h
  · intro o v h; exact validate_keys _ _ o v h
  · intro o v h; exact validate_keys _ _ o v h
  · intro o v1 v2 h1 h2; exact spread_validated_keys _ _ _ _ _ _ v1 v2 h1 h2
  · intro o v1 v2 h1 h2; exact spread_validated_keys _ _ _ _ _ _ v1 v2 h1 h2

/-- Witness for c9_unknownKeysStripped: an input with an unknown key
junk validates to an object that kept only the declared timeout key. -/
theorem c9_unknownKeysStripped_witness :
    validateScrapeOptions (.obj [("junk", .num 1), ("timeout", .num 6000)])
      = .ok (.obj [("timeout", .num 6000)]) ∧
    ∃ fs, JsVal.obj [("timeout", .num 6000)] = .obj fs ∧
      ∀ p ∈ fs, p.1 ∈ ScrapeOptionsSchemaL.map Prod.fst :=
  ⟨rfl, c9_unknownKeysStripped.1 (.obj [("junk", .num 1), ("timeout", .num 6000)])
    (.obj [("timeout", .num 6000)]) rfl⟩

theorem validate_error_of_field (pre : String) (schema : List (String × FieldCheck))
    (fs : List (String × JsVal)) (k : String) (c : FieldCheck) (i : Issue) (is : List Issue)
    (hfc : findCheck schema k = some c)
    (hc : c (jsGet (.obj fs) k) = .error (i :: is)) :
    ∃ l, validateWith pre schema (.obj fs) =
        .error ⟨pre ++ formatIssues l, some (.str "VALIDATION_ERROR"),
          some (.issues l), some l⟩ ∧
      (⟨k :: i.path, i.message⟩ : Issue) ∈ l := by
  have hc2 : c ((findVal fs k).getD .undefined) = .error (i :: is) := hc
  have hmem := runFields_error_mem fs schema k c i is hfc hc2
  cases hl : (runFields fs schema).1 with
  | nil => rw [hl] at hmem; cases hmem
  | cons a l =>
    rw [hl] at hmem
    exact ⟨a :: l, validateWith_error pre schema fs a l hl, hmem⟩

theorem scrapeKey_not_mapKey :
    ∀ k ∈ ScrapeOptionsSchemaL.map Prod.fst, k ∉ MapKeys := by decide

theorem scrapeKey_not_crawlKey :
    ∀ k ∈ ScrapeOptionsSchemaL.map Prod.fst, k ∉ CrawlKeys := by decide

theorem mapScrapeHalf_get (fs : List (String × JsVal)) (k : String) (hk : k ∉ MapKeys) :
    jsGet (mapScrapeHalf (.obj fs)) k = jsGet (.obj fs) k := by
  simp [mapScrapeHalf, objFields, jsGet_obj, findVal_removeKeys, hk]

theorem crawlScrapeHalf_get (fs : List (String × JsVal)) (k : String) (hk : k ∉ CrawlKeys) :
    jsGet (crawlScrapeHalf (.obj fs)) k = jsGet (.obj fs) k := by
  simp [crawlScrapeHalf, objFields, jsGet_obj, findVal_removeKeys, hk]

theorem mapOpHalf_get (o : JsVal) (k : String) (hk : k ∈ MapKeys) :
    jsGet (mapOpHalf o) k = jsGet o k := by
  simp only [MapKeys, List.mem_cons, List.mem_singleton, List.not_mem_nil, or_false] at hk
  rcases hk with rfl | rfl | rfl <;> rfl

theorem crawlOpHalf_get (o : JsVal) (k : String) (hk : k ∈ CrawlKeys) :
    jsGet (crawlOpHalf o) k = jsGet o k := by
  simp only [CrawlKeys, List.mem_cons, List.mem_singleton, List.not_mem_nil, or_false] at hk
  rcases hk with rfl | rfl | rfl | rfl | rfl | rfl | rfl <;> rfl

theorem mapKeys_of_schema (k : String) (c : FieldCheck)
    (h : findCheck MapOptionsSchemaL k = some c) : k ∈ MapKeys := by
  have := findCheck_mem MapOptionsSchemaL k c h
  simpa [MapOptionsSchemaL, MapKeys] using this

theorem crawlKeys_of_schema (k : String) (c : FieldCheck)
    (h : findCheck CrawlOptionsSchemaL k = some c) : k ∈ CrawlKeys := by
  have := findCheck_mem CrawlOptionsSchemaL k c h
  simpa [CrawlOptionsSchemaL, CrawlKeys] using this

/-- Counterexample to C3 as stated: crawl with timeout = 4999 (a
scrape-half violation) and max_depth = 6 (a crawl-half violation; its
own field validator rejects 6, as the second conjunct shows) rejects
naming only timeout — the violation list carried by the error contains
no entry whose path names max_depth, although max_depth is a declared
field outside its bound. -/
theorem c3_counterexample :
    crawlPrepare ⟨false, defaultEndpointUrl, defaultFunctionId⟩ (.str "https://x")
        (.obj [("timeout", .num 4999), ("max_depth", .num 6)]) =
      .error ⟨"Scrape options validation failed: timeout: Number must be greater than or equal to 5000",
        some (.str "VALIDATION_ERROR"),
        some (.issues [⟨["timeout"], "Number must be greater than or equal to 5000"⟩]),
        some [⟨["timeout"], "Number must be greater than or equal to 5000"⟩]⟩ ∧
    findCheck CrawlOptionsSchemaL "max_depth" = some (optC (intC 1 5)) ∧
    optC (intC 1 5) (.num 6) = .error [⟨[], "Number must be less than or equal to 5"⟩] ∧
    ∀ iss ∈ [Issue.mk ["timeout"] "Number must be greater than or equal to 5000"],
      iss.path ≠ ["max_depth"] :=
  ⟨rfl, rfl, rfl, by decide⟩

/-- C3 amended: an operation call with a non-empty url and a declared
field whose validator rejects its value rejects with a
BlessCrawlValidationError: code VALIDATION_ERROR, the zod issue list as
validationErrors, the message formatted from that list, and no dispatch
(the result is an error, so neither the local handle nor any HTTP
request is reached). The violation list names the offending field's
path, except that for map and crawl the scrape half is validated first
and throws first, so an operation-half violation is only guaranteed to
be named when the scrape half validates cleanly. -/
theorem c3_amended :
    (∀ (inst : Instance) (s : String) fs k c i is, jsTrim s ≠ "" →
      findCheck ScrapeOptionsSchemaL k = some c →
      c (jsGet (.obj fs) k) = .error (i :: is) →
      ∃ l, scrapePrepare inst (.str s) (.obj fs) =
          .error ⟨"Scrape options validation failed: " ++ formatIssues l,
            some (.str "VALIDATION_ERROR"), some (.issues l), some l⟩ ∧
        (⟨k :: i.path, i.message⟩ : Issue) ∈ l) ∧
    (∀ (inst : Instance) (s : String) fs k c i is, jsTrim s ≠ "" →
      findCheck ScrapeOptionsSchemaL k = some c →
      c (jsGet (.obj fs) k) = .error (i :: is) →
      ∃ l, mapPrepare inst (.str s) (.obj fs) =
          .error ⟨"Scrape options validation failed: " ++ formatIssues l,
            some (.str "VALIDATION_ERROR"), some (.issues l), some l⟩ ∧
        (⟨k :: i.path, i.message⟩ : Issue) ∈ l) ∧
    (∀ (inst : Instance) (s : String) fs k c i is v1, jsTrim s ≠ "" →
      validateScrapeOptions (mapScrapeHalf (.obj fs)) = .ok v1 →
      findCheck MapOptionsSchemaL k = some c →
      c (jsGet (.obj fs) k) = .error (i :: is) →
      ∃ l, mapPrepare inst (.str s) (.obj fs) =
          .error ⟨"Map options validation failed: " ++ formatIssues l,
            some (.str "VALIDATION_ERROR"), some (.issues l), some l⟩ ∧
        (⟨k :: i.path, i.message⟩ : Issue) ∈ l) ∧
    (∀ (inst : Instance) (s : String) fs k c i is, jsTrim s ≠ "" →
      findCheck ScrapeOptionsSchemaL k = some c →
      c (jsGet (.obj fs) k) = .error (i :: is) →
      ∃ l, crawlPrepare inst (.str s) (.obj fs) =
          .error ⟨"Scrape options validation failed: " ++ formatIssues l,
            some (.str "VALIDATION_ERROR"), some (.issues l), some l⟩ ∧
        (⟨k :: i.path, i.message⟩ : Issue) ∈ l) ∧
    (∀ (inst : Instance) (s : String) fs k c i is v1, jsTrim s ≠ "" →
      validateScrapeOptions (crawlScrapeHalf (.obj fs)) = .ok v1 →
      findCheck CrawlOptionsSchemaL k = some c →
      c (jsGet (.obj fs) k) = .error (i :: is) →
      ∃ l, crawlPrepare inst (.str s) (.obj fs) =
          .error ⟨"Crawl options validation failed: " ++ formatIssues l,
            some (.str "VALIDATION_ERROR"), some (.issues l), some l⟩ ∧
        (⟨k :: i.path, i.message⟩ : Issue) ∈ l) := by
  refine ⟨?_, ?_, ?_, ?_, ?_⟩
  · intro inst s fs k c i is hs hfc hc
    have hu : urlOk (.str s) = true := by simp [urlOk, hs]
    obtain ⟨l, hval, hmem⟩ := validate_error_of_field
      "Scrape options validation failed: " ScrapeOptionsSchemaL fs k c i is hfc hc
    exact ⟨l, by simp [scrapePrepare, hu, validateScrapeOptions, hval], hmem⟩
  · intro inst s fs k c i is hs hfc hc
    have hu : urlOk (.str s) = true := by simp [urlOk, hs]
    have hnk : k ∉ MapKeys :=
      scrapeKey_not_mapKey k (findCheck_mem ScrapeOptionsSchemaL k c hfc)
    have hc2 : c (jsGet (mapScrapeHalf (.obj fs)) k) = .error (i :: is) := by
      rw [mapScrapeHalf_get fs k hnk]; exact hc
    obtain ⟨l, hval, hmem⟩ := validate_error_of_field
      "Scrape options validation failed: " ScrapeOptionsSchemaL
      (removeKeys fs MapKeys) k c i is hfc hc2
    refine ⟨l, ?_, hmem⟩
    have hval2 : validateScrapeOptions (mapScrapeHalf (.obj fs)) =
        .error ⟨"Scrape options validation failed: " ++ formatIssues l,
          some (.str "VALIDATION_ERROR"), some (.issues l), some l⟩ := by
      simpa [validateScrapeOptions, mapScrapeHalf, objFields] using hval
    simp [mapPrepare, hu, hval2]
  · intro inst s fs k c i is v1 hs hv1 hfc hc
    have hu : urlOk (.str s) = true := by simp [urlOk, hs]
    have hk : k ∈ MapKeys := mapKeys_of_schema k c hfc
    have hc2 : c (jsGet (mapOpHalf (.obj fs)) k) = .error (i :: is) := by
      rw [mapOpHalf_get (.obj fs) k hk]; exact hc
    obtain ⟨l, hval, hmem⟩ := validate_error_of_field
      "Map options validation failed: " MapOptionsSchemaL
      (objFields (mapOpHalf (.obj fs))) k c i is hfc (by
        simpa [objFields] using hc2)
    refine ⟨l, ?_, hmem⟩
    have hval2 : validateMapOptions (mapOpHalf (.obj fs)) =
        .error ⟨"Map options validation failed: " ++ formatIssues l,
          some (.str "VALIDATION_ERROR"), some (.issues l), some l⟩ := by
      simpa [validateMapOptions, objFields] using hval
    simp [mapPrepare, hu, hv1, hval2]
  · intro inst s fs k c i is hs hfc hc
    have hu : urlOk (.str s) = true := by simp [urlOk, hs]
    have hnk : k ∉ CrawlKeys :=
      scrapeKey_not_crawlKey k (findCheck_mem ScrapeOptionsSchemaL k c hfc)
    have hc2 : c (jsGet (crawlScrapeHalf (.obj fs)) k) = .error (i :: is) := by
      rw [crawlScrapeHalf_get fs k hnk]; exact hc
    obtain ⟨l, hval, hmem⟩ := validate_error_of_field
      "Scrape options validation failed: " ScrapeOptionsSchemaL
      (removeKeys fs CrawlKeys) k c i is hfc hc2
    refine ⟨l, ?_, hmem⟩
    have hval2 : validateScrapeOptions (crawlScrapeHalf (.obj fs)) =
        .error ⟨"Scrape options validation failed: " ++ formatIssues l,
          some (.str "VALIDATION_ERROR"), some (.issues l), some l⟩ := by
      simpa [validateScrapeOptions, crawlScrapeHalf, objFields] using hval
    simp [crawlPrepare, hu, hval2]
  · intro inst s fs k c i is v1 hs hv1 hfc hc
    have hu : urlOk (.str s) = true := by simp [urlOk, hs]
    have hk : k ∈ CrawlKeys := crawlKeys_of_schema k c hfc
    have hc2 : c (jsGet (crawlOpHalf (.obj fs)) k) = .error (i :: is) := by
      rw [crawlOpHalf_get (.obj fs) k hk]; exact hc
    obtain ⟨l, hval, hmem⟩ := validate_error_of_field
      "Crawl options validation failed: " CrawlOptionsSchemaL
      (objFields (crawlOpHalf (.obj fs))) k c i is hfc (by
        simpa [objFields] using hc2)
    refine ⟨l, ?_, hmem⟩
    have hval2 : validateCrawlOptions (crawlOpHalf (.obj fs)) =
        .error ⟨"Crawl options validation failed: " ++ formatIssues l,
          some (.str "VALIDATION_ERROR"), some (.issues l), some l⟩ := by
      simpa [validateCrawlOptions, objFields] using hval
    simp [crawlPrepare, hu, hv1, hval2]

/-- Witness for c3_amended: scrape with timeout = 4999 rejects with
VALIDATION_ERROR and a violation naming timeout. -/
theorem c3_amended_witness :
    ∃ l, scrapePrepare ⟨false, defaultEndpointUrl, defaultFunctionId⟩
        (.str "https://example.com") (.obj [("timeout", .num 4999)]) =
        .error ⟨"Scrape options validation failed: " ++ formatIssues l,
          some (.str "VALIDATION_ERROR"), some (.issues l), some l⟩ ∧
      (⟨"timeout" :: ([] : List String), "Number must be greater than or equal to 5000"⟩ : Issue) ∈ l :=
  c3_amended.1 ⟨false, defaultEndpointUrl, defaultFunctionId⟩ "https://example.com"
    [("timeout", .num 4999)] "timeout" (optC (intC 5000 120000))
    ⟨[], "Number must be greater than or equal to 5000"⟩ [] (by decide) rfl rfl

/-- Section-3 bound for an optional integer field. -/
def intInRangeB (lo hi : Int) : JsVal → Bool
  | .undefined => true
  | .num n => decide (lo ≤ n) && decide (n ≤ hi)
  | _ => false

/-- Section-3 bound for an optional boolean field. -/
def boolB : JsVal → Bool
  | .undefined => true
  | .bool _ => true
  | _ => false

/-- Section-3 bound for an optional enum field. -/
def enumB (vals : List String) : JsVal → Bool
  | .undefined => true
  | .str s => vals.contains s
  | _ => false

/-- Section-3 bound for an optional bounded string field. -/
def strB (minL maxL : Nat) (p : String → Bool) : JsVal → Bool
  | .undefined => true
  | .str s => decide (minL ≤ s.length) && decide (s.length ≤ maxL) && p s
  | _ => false

/-- Section-3 bound for an optional unconstrained string field. -/
def plainStrB : JsVal → Bool
  | .undefined => true
  | .str _ => true
  | _ => false

/-- Section-3 bound for an optional array field with an element bound. -/
def arrB (eb : JsVal → Bool) (maxN : Nat) : JsVal → Bool
  | .undefined => true
  | .arr xs => decide (xs.length ≤ maxN) && xs.all eb
  | _ => false

/-- Element bound for include_tags / exclude_tags. -/
def tagElemB : JsVal → Bool
  | .str s => decide (1 ≤ s.length) && decide (s.length ≤ 50) && tagRegex s
  | _ => false

/-- Element bound for link_types. -/
def enumElemB (vals : List String) : JsVal → Bool
  | .str s => vals.contains s
  | _ => false

/-- Element bound for filter_extensions. -/
def extElemB : JsVal → Bool
  | .str s => extRegex s
  | _ => false

/-- Element bound for exclude_paths / include_paths. -/
def pathElemB : JsVal → Bool
  | .str s => decide (1 ≤ s.length) && decide (s.length ≤ 200)
  | _ => false

/-- Section-3 shape of the nested viewport object: only the declared
width/height keys, each in range when present. -/
def viewportOkB : JsVal → Bool
  | .undefined => true
  | .obj fs =>
      decide ((fs.map Prod.fst).Nodup) &&
      fs.all (fun p => p.1 = "width" || p.1 = "height") &&
      intInRangeB 320 7680 (jsGet (.obj fs) "width") &&
      intInRangeB 240 4320 (jsGet (.obj fs) "height")
  | _ => false

/-- Section-3 bound for the headers record: at most 20 entries, valid
header-name keys of 1-100 characters, string values of at most 1000. -/
def headersOkB : JsVal → Bool
  | .undefined => true
  | .obj fs =>
      decide (fs.length ≤ 20) &&
      fs.all (fun p =>
        (decide (1 ≤ p.1.length) && decide (p.1.length ≤ 100) && headerRegex p.1) &&
        (match p.2 with | .str s => decide (s.length ≤ 1000) | _ => false))
  | _ => false

theorem optIntC_sound (lo hi : Int) (v : JsVal) (h : intInRangeB lo hi v = true) :
    optC (intC lo hi) v = .ok v := by
  cases v with
  | undefined => rfl
  | num n =>
    simp only [intInRangeB, Bool.and_eq_true, decide_eq_true_eq] at h
    simp [optC, intC, not_lt.mpr h.1, not_lt.mpr h.2]
  | null => simp [intInRangeB] at h
  | bool b => simp [intInRangeB] at h
  | str s => simp [intInRangeB] at h
  | arr xs => simp [intInRangeB] at h
  | obj fs => simp [intInRangeB] at h

theorem optBoolC_sound (v : JsVal) (h : boolB v = true) : optC boolC v = .ok v := by
  cases v with
  | undefined => rfl
  | bool b => rfl
  | null => simp [boolB] at h
  | num n => simp [boolB] at h
  | str s => simp [boolB] at h
  | arr xs => simp [boolB] at h
  | obj fs => simp [boolB] at h

theorem optEnumC_sound (vals : List String) (v : JsVal) (h : enumB vals v = true) :
    optC (enumC vals) v = .ok v := by
  cases v with
  | undefined => rfl
  | str s =>
    have : s ∈ vals := by simpa [enumB] using h
    simp [optC, enumC, this]
  | null => simp [enumB] at h
  | num n => simp [enumB] at h
  | bool b => simp [enumB] at h
  | arr xs => simp [enumB] at h
  | obj fs => simp [enumB] at h

theorem strC_some_sound (minL maxL : Nat) (p : String → Bool) (m : String) (s : String)
    (h1 : minL ≤ s.length) (h2 : s.length ≤ maxL) (h3 : p s = true) :
    strC minL maxL (some (p, m)) (.str s) = .ok (.str s) := by
  simp [strC, not_lt.mpr h1, not_lt.mpr h2, h3]

theorem strC_none_sound (minL maxL : Nat) (s : String)
    (h1 : minL ≤ s.length) (h2 : s.length ≤ maxL) :
    strC minL maxL none (.str s) = .ok (.str s) := by
  simp [strC, not_lt.mpr h1, not_lt.mpr h2]

theorem optStrC_none_sound (minL maxL : Nat) (v : JsVal)
    (h : strB minL maxL (fun _ => true) v = true) :
    optC (strC minL maxL none) v = .ok v := by
  cases v with
  | undefined => rfl
  | str s =>
    simp only [strB, Bool.and_eq_true, decide_eq_true_eq] at h
    exact strC_none_sound minL maxL s h.1.1 h.1.2
  | null => simp [strB] at h
  | num n => simp [strB] at h
  | bool b => simp [strB] at h
  | arr xs => simp [strB] at h
  | obj fs => simp [strB] at h

theorem optPlainStrC_sound (v : JsVal) (h : plainStrB v = true) :
    optC strPlainC v = .ok v := by
  cases v with
  | undefined => rfl
  | str s => rfl
  | null => simp [plainStrB] at h
  | num n => simp [plainStrB] at h
  | bool b => simp [plainStrB] at h
  | arr xs => simp [plainStrB] at h
  | obj fs => simp [plainStrB] at h

theorem arrElems_ok (c : FieldCheck) (xs : List JsVal)
    (h : ∀ x ∈ xs, c x = .ok x) : ∀ i, arrElems c i xs = ([], xs) := by
  induction xs with
  | nil => intro i; rfl
  | cons x t ih =>
    intro i
    have hx : c x = .ok x := h x (by simp)
    have ht := ih (fun y hy => h y (by simp [hy])) (i + 1)
    simp [arrElems, hx, ht]

theorem optArrayC_sound (c : FieldCheck) (eb : JsVal → Bool) (maxN : Nat) (v : JsVal)
    (hsound : ∀ x, eb x = true → c x = .ok x)
    (h : arrB eb maxN v = true) :
    optC (arrayC c maxN) v = .ok v := by
  cases v with
  | undefined => rfl
  | arr xs =>
    simp only [arrB, Bool.and_eq_true, decide_eq_true_eq, List.all_eq_true] at h
    have he := arrElems_ok c xs (fun x hx => hsound x (h.2 x hx)) 0
    simp [optC, arrayC, not_lt.mpr h.1, he]
  | null => simp [arrB] at h
  | num n => simp [arrB] at h
  | bool b => simp [arrB] at h
  | str s => simp [arrB] at h
  | obj fs => simp [arrB] at h

theorem tagElemC_sound (v : JsVal) (h : tagElemB v = true) : tagElemC v = .ok v := by
  cases v with
  | str s =>
    simp only [tagElemB, Bool.and_eq_true, decide_eq_true_eq] at h
    exact strC_some_sound 1 50 tagRegex "Invalid HTML tag name" s h.1.1 h.1.2 h.2
  | undefined => simp [tagElemB] at h
  | null => simp [tagElemB] at h
  | num n => simp [tagElemB] at h
  | bool b => simp [tagElemB] at h
  | arr xs => simp [tagElemB] at h
  | obj fs => simp [tagElemB] at h

theorem enumElemC_sound (vals : List String) (v : JsVal) (h : enumElemB vals v = true) :
    enumC vals v = .ok v := by
  cases v with
  | str s =>
    have : s ∈ vals := by simpa [enumElemB] using h
    simp [enumC, this]
  | undefined => simp [enumElemB] at h
  | null => simp [enumElemB] at h
  | num n => simp [enumElemB] at h
  | bool b => simp [enumElemB] at h
  | arr xs => simp [enumElemB] at h
  | obj fs => simp [enumElemB] at h

theorem extElemC_sound (v : JsVal) (h : extElemB v = true) :
    strRegexC extRegex "Extension must start with dot and be 1-10 chars" v = .ok v := by
  cases v with
  | str s =>
    have : extRegex s = true := by simpa [extElemB] using h
    simp [strRegexC, this]
  | undefined => simp [extElemB] at h
  | null => simp [extElemB] at h
  | num n => simp [extElemB] at h
  | bool b => simp [extElemB] at h
  | arr xs => simp [extElemB] at h
  | obj fs => simp [extElemB] at h

theorem pathElemC_sound (v : JsVal) (h : pathElemB v = true) :
    strC 1 200 none v = .ok v := by
  cases v with
  | str s =>
    simp only [pathElemB, Bool.and_eq_true, decide_eq_true_eq] at h
    exact strC_none_sound 1 200 s h.1 h.2
  | undefined => simp [pathElemB] at h
  | null => simp [pathElemB] at h
  | num n => simp [pathElemB] at h
  | bool b => simp [pathElemB] at h
  | arr xs => simp [pathElemB] at h
  | obj fs => simp [pathElemB] at h

theorem recEntries_ok (fs : List (String × JsVal))
    (h : ∀ p ∈ fs,
      ((decide (1 ≤ p.1.length) && decide (p.1.length ≤ 100) && headerRegex p.1) &&
       (match p.2 with | JsVal.str s => decide (s.length ≤ 1000) | _ => false)) = true) :
    recEntries (strC 1 100 (some (headerRegex, "Invalid header name"))) (strC 0 1000 none) fs
      = ([], fs) := by
  induction fs with
  | nil => rfl
  | cons q t ih =>
    obtain ⟨hk, hv⟩ := by simpa using h q (by simp)
    obtain ⟨⟨hk1, hk2⟩, hk3⟩ := by simpa using hk
    have hkey := strC_some_sound 1 100 headerRegex "Invalid header name" q.1 hk1 hk2 hk3
    have hvs : ∃ s, q.2 = JsVal.str s ∧ s.length ≤ 1000 := by
      cases hq2 : q.2 with
      | str s => exact ⟨s, rfl, by rw [hq2] at hv; simpa using hv⟩
      | undefined => rw [hq2] at hv; simp at hv
      | null => rw [hq2] at hv; simp at hv
      | bool b => rw [hq2] at hv; simp at hv
      | num n => rw [hq2] at hv; simp at hv
      | arr xs => rw [hq2] at hv; simp at hv
      | obj g => rw [hq2] at hv; simp at hv
    obtain ⟨s, hqs, hslen⟩ := hvs
    have hval : strC 0 1000 none q.2 = .ok q.2 := by
      rw [hqs]; exact strC_none_sound 0 1000 s (Nat.zero_le _) hslen
    have ht := ih (fun p hp => h p (by simp [hp]))
    cases q with
    | mk k v2 =>
      simp only [recEntries, ht]
      simp only at hkey hval
      simp [hkey, hval]

theorem optHeadersC_sound (v : JsVal) (h : headersOkB v = true) :
    optC headersC v = .ok v := by
  cases v with
  | undefined => rfl
  | obj fs =>
    simp only [headersOkB, Bool.and_eq_true, decide_eq_true_eq, List.all_eq_true] at h
    have hre := recEntries_ok fs (fun p hp => by
      have := h.2 p hp
      simpa using this)
    simp [optC, headersC, recordC, hre, not_lt.mpr h.1]
  | null => simp [headersOkB] at h
  | num n => simp [headersOkB] at h
  | bool b => simp [headersOkB] at h
  | str s => simp [headersOkB] at h
  | arr xs => simp [headersOkB] at h

theorem optC_undefined (c : FieldCheck) : optC c .undefined = .ok .undefined := rfl

theorem viewportC_obj (fs : List (String × JsVal)) :
    viewportC (.obj fs) = runSchema ViewportSchemaL (.obj fs) := rfl

theorem viewport_sound (v : JsVal) (h : viewportOkB v = true) :
    ∃ w, viewportC v = .ok w ∧ canonV w = canonV v := by
  cases v with
  | undefined => exact ⟨.undefined, rfl, rfl⟩
  | null => simp [viewportOkB] at h
  | num n => simp [viewportOkB] at h
  | bool b => simp [viewportOkB] at h
  | str s => simp [viewportOkB] at h
  | arr xs => simp [viewportOkB] at h
  | obj fs =>
    simp only [viewportOkB, Bool.and_eq_true, decide_eq_true_eq, List.all_eq_true,
      Bool.or_eq_true] at h
    obtain ⟨⟨⟨hnd, hkeys⟩, hw⟩, hh⟩ := h
    match fs, hnd, hkeys, hw, hh with
    | [], _, _, _, _ => exact ⟨.obj [], rfl, rfl⟩
    | [(k1, v1)], _, hkeys, hw, hh =>
      rcases hkeys (k1, v1) (by simp) with hk | hk
      · subst hk
        have hv1 : optC (intC 320 7680) v1 = .ok v1 := optIntC_sound _ _ _ (by simpa using hw)
        refine ⟨.obj [("width", v1)], ?_, rfl⟩
        simp [viewportC_obj, runSchema, ViewportSchemaL, runFields, findVal, hv1, isUndefined,
          optC_undefined]
      · subst hk
        have hv1 : optC (intC 240 4320) v1 = .ok v1 := optIntC_sound _ _ _ (by simpa using hh)
        refine ⟨.obj [("height", v1)], ?_, rfl⟩
        simp [viewportC_obj, runSchema, ViewportSchemaL, runFields, findVal, hv1, isUndefined,
          optC_undefined]
    | [(k1, v1), (k2, v2)], hnd, hkeys, hw, hh =>
      rcases hkeys (k1, v1) (by simp) with hk1 | hk1 <;>
        rcases hkeys (k2, v2) (by simp) with hk2 | hk2
      · exfalso; subst hk1; subst hk2; simp at hnd
      · subst hk1; subst hk2
        have hv1 : optC (intC 320 7680) v1 = .ok v1 := optIntC_sound _ _ _ (by simpa using hw)
        have hv2 : optC (intC 240 4320) v2 = .ok v2 := optIntC_sound _ _ _ (by simpa using hh)
        refine ⟨.obj [("width", v1), ("height", v2)], ?_, rfl⟩
        simp [viewportC_obj, runSchema, ViewportSchemaL, runFields, findVal, hv1, hv2, isUndefined,
          optC_undefined]
      · subst hk1; subst hk2
        have hv2 : optC (intC 320 7680) v2 = .ok v2 := optIntC_sound _ _ _ (by simpa using hw)
        have hv1 : optC (intC 240 4320) v1 = .ok v1 := optIntC_sound _ _ _ (by simpa using hh)
        refine ⟨.obj [("width", v2), ("height", v1)], ?_, ?_⟩
        · simp [viewportC_obj, runSchema, ViewportSchemaL, runFields, findVal, hv1, hv2, isUndefined]
        · have hle1 : keyLe "width" "height" = false := by decide
          have hle2 : keyLe "height" "width" = true := by decide
          simp [canonV, canonF, dedupFields, sortFields, insertField, hle1, hle2]
      · exfalso; subst hk1; subst hk2; simp at hnd
    | (k1, v1) :: (k2, v2) :: (k3, v3) :: rest, hnd, hkeys, _, _ =>
      exfalso
      rcases hkeys (k1, v1) (by simp) with hk1 | hk1 <;>
        rcases hkeys (k2, v2) (by simp) with hk2 | hk2 <;>
          rcases hkeys (k3, v3) (by simp) with hk3 | hk3 <;>
            (subst hk1; subst hk2; subst hk3) <;> simp at hnd

/-- All declared ScrapeOptions fields of an options object satisfy their
section-3 bounds. -/
def scrapeFieldsOk (o : JsVal) : Bool :=
  intInRangeB 5000 120000 (jsGet o "timeout") &&
  intInRangeB 0 20000 (jsGet o "wait_time") &&
  arrB tagElemB 50 (jsGet o "include_tags") &&
  arrB tagElemB 50 (jsGet o "exclude_tags") &&
  boolB (jsGet o "only_main_content") &&
  enumB ["markdown", "html", "json"] (jsGet o "format") &&
  viewportOkB (jsGet o "viewport") &&
  strB 1 500 (fun _ => true) (jsGet o "user_agent") &&
  headersOkB (jsGet o "headers")

/-- All declared MapOptions fields of an options object satisfy their
section-3 bounds. -/
def mapFieldsOk (o : JsVal) : Bool :=
  arrB (enumElemB ["internal", "external", "anchor", "mailto", "tel", "file"]) 10
    (jsGet o "link_types") &&
  plainStrB (jsGet o "base_url") &&
  arrB extElemB 20 (jsGet o "filter_extensions")

/-- All declared CrawlOptions fields of an options object satisfy their
section-3 bounds. -/
def crawlFieldsOk (o : JsVal) : Bool :=
  intInRangeB 1 1000 (jsGet o "limit") &&
  intInRangeB 1 5 (jsGet o "max_depth") &&
  arrB pathElemB 100 (jsGet o "exclude_paths") &&
  arrB pathElemB 100 (jsGet o "include_paths") &&
  boolB (jsGet o "follow_external") &&
  intInRangeB 0 30000 (jsGet o "delay_between_requests") &&
  intInRangeB 1 5 (jsGet o "parallel_requests")

theorem scrape_allOk (fs : List (String × JsVal)) (h : scrapeFieldsOk (.obj fs) = true) :
    ∀ p ∈ ScrapeOptionsSchemaL, ∃ w, p.2 ((findVal fs p.1).getD .undefined) = .ok w ∧
      canonV w = canonV ((findVal fs p.1).getD .undefined) := by
  simp only [scrapeFieldsOk, Bool.and_eq_true] at h
  obtain ⟨⟨⟨⟨⟨⟨⟨⟨h1, h2⟩, h3⟩, h4⟩, h5⟩, h6⟩, h7⟩, h8⟩, h9⟩ := h
  intro p hp
  simp only [ScrapeOptionsSchemaL, List.mem_cons, List.not_mem_nil, or_false] at hp
  rcases hp with rfl | rfl | rfl | rfl | rfl | rfl | rfl | rfl | rfl
  · exact ⟨_, optIntC_sound 5000 120000 _ h1, rfl⟩
  · exact ⟨_, optIntC_sound 0 20000 _ h2, rfl⟩
  · exact ⟨_, optArrayC_sound tagElemC tagElemB 50 _ tagElemC_sound h3, rfl⟩
  · exact ⟨_, optArrayC_sound tagElemC tagElemB 50 _ tagElemC_sound h4, rfl⟩
  · exact ⟨_, optBoolC_sound _ h5, rfl⟩
  · exact ⟨_, optEnumC_sound _ _ h6, rfl⟩
  · exact viewport_sound _ h7
  · exact ⟨_, optStrC_none_sound 1 500 _ h8, rfl⟩
  · exact ⟨_, optHeadersC_sound _ h9, rfl⟩

theorem map_allOk (o : JsVal) (h : mapFieldsOk o = true) :
    ∀ p ∈ MapOptionsSchemaL, ∃ w, p.2 (jsGet o p.1) = .ok w ∧
      canonV w = canonV (jsGet o p.1) := by
  simp only [mapFieldsOk, Bool.and_eq_true] at h
  obtain ⟨⟨h1, h2⟩, h3⟩ := h
  intro p hp
  simp only [MapOptionsSchemaL, List.mem_cons, List.not_mem_nil, or_false] at hp
  rcases hp with rfl | rfl | rfl
  · exact ⟨_, optArrayC_sound _ (enumElemB _) 10 _ (enumElemC_sound _) h1, rfl⟩
  · exact ⟨_, optPlainStrC_sound _ h2, rfl⟩
  · exact ⟨_, optArrayC_sound _ extElemB 20 _ extElemC_sound h3, rfl⟩

theorem crawl_allOk (o : JsVal) (h : crawlFieldsOk o = true) :
    ∀ p ∈ CrawlOptionsSchemaL, ∃ w, p.2 (jsGet o p.1) = .ok w ∧
      canonV w = canonV (jsGet o p.1) := by
  simp only [crawlFieldsOk, Bool.and_eq_true] at h
  obtain ⟨⟨⟨⟨⟨⟨h1, h2⟩, h3⟩, h4⟩, h5⟩, h6⟩, h7⟩ := h
  intro p hp
  simp only [CrawlOptionsSchemaL, List.mem_cons, List.not_mem_nil, or_false] at hp
  rcases hp with rfl | rfl | rfl | rfl | rfl | rfl | rfl
  · exact ⟨_, optIntC_sound 1 1000 _ h1, rfl⟩
  · exact ⟨_, optIntC_sound 1 5 _ h2, rfl⟩
  · exact ⟨_, optArrayC_sound _ pathElemB 100 _ pathElemC_sound h3, rfl⟩
  · exact ⟨_, optArrayC_sound _ pathElemB 100 _ pathElemC_sound h4, rfl⟩
  · exact ⟨_, optBoolC_sound _ h5, rfl⟩
  · exact ⟨_, optIntC_sound 0 30000 _ h6, rfl⟩
  · exact ⟨_, optIntC_sound 1 5 _ h7, rfl⟩

theorem scrapeKeys_nodup : (ScrapeOptionsSchemaL.map Prod.fst).Nodup := by decide

theorem mapSchemaKeys_nodup : (MapOptionsSchemaL.map Prod.fst).Nodup := by decide

theorem crawlSchemaKeys_nodup : (CrawlOptionsSchemaL.map Prod.fst).Nodup := by decide

theorem mapSchemaKeys_mem : ∀ k ∈ MapOptionsSchemaL.map Prod.fst, k ∈ MapKeys := by decide

theorem crawlSchemaKeys_mem : ∀ k ∈ CrawlOptionsSchemaL.map Prod.fst, k ∈ CrawlKeys := by
  decide

theorem findCheck_some_of_mem (schema : List (String × FieldCheck)) (k : String)
    (h : k ∈ schema.map Prod.fst) : ∃ c, findCheck schema k = some c := by
  induction schema with
  | nil => simp at h
  | cons p t ih =>
    by_cases hk : p.1 = k
    · exact ⟨p.2, by simp [findCheck, hk]⟩
    · have h2 : k ∈ t.map Prod.fst := by
        rcases List.mem_cons.mp h with hh | hh
        · exact absurd hh.symm hk
        · exact hh
      rcases ih h2 with ⟨c, hc⟩
      exact ⟨c, by simp [findCheck, hk, hc]⟩

theorem jsGet_spread_left (f1 f2 : List (String × JsVal)) (k : String)
    (h2 : findVal f2 k = none) :
    (findVal (spreadFields f1 f2) k).getD .undefined = (findVal f1 k).getD .undefined := by
  rw [findVal_spread]
  cases h1 : findVal f1 k with
  | none => simp [h2]
  | some v => simp [h2]

theorem jsGet_spread_right (f1 f2 : List (String × JsVal)) (k : String)
    (h1 : findVal f1 k = none) :
    (findVal (spreadFields f1 f2) k).getD .undefined = (findVal f2 k).getD .undefined := by
  rw [findVal_spread, h1]

theorem mapLossless (inst : Instance) (s : String) (fs : List (String × JsVal))
    (hs : jsTrim s ≠ "")
    (hS : scrapeFieldsOk (.obj fs) = true) (hM : mapFieldsOk (.obj fs) = true) :
    ∃ v1 v2,
      validateScrapeOptions (mapScrapeHalf (.obj fs)) = .ok v1 ∧
      validateMapOptions (mapOpHalf (.obj fs)) = .ok v2 ∧
      mapPrepare inst (.str s) (.obj fs)
        = .ok (dispatchOf inst "map" (.str s) (spreadMerge v1 v2)) ∧
      ∀ k ∈ ScrapeOptionsSchemaL.map Prod.fst ++ MapOptionsSchemaL.map Prod.fst,
        jsEqual (jsGet (spreadMerge v1 v2) k) (jsGet (.obj fs) k) := by
  have hu : urlOk (.str s) = true := by simp [urlOk, hs]
  have hAval : ∀ k, k ∉ MapKeys →
      (findVal (removeKeys fs MapKeys) k).getD .undefined = (findVal fs k).getD .undefined := by
    intro k hk
    rw [findVal_removeKeys]
    simp [hk]
  have hallA : ∀ p ∈ ScrapeOptionsSchemaL,
      ∃ w, p.2 ((findVal (removeKeys fs MapKeys) p.1).getD .undefined) = .ok w ∧
        canonV w = canonV ((findVal (removeKeys fs MapKeys) p.1).getD .undefined) := by
    intro p hp
    have hnk : p.1 ∉ MapKeys :=
      scrapeKey_not_mapKey p.1 (List.mem_map.mpr ⟨p, hp, rfl⟩)
    rw [hAval p.1 hnk]
    exact scrape_allOk fs hS p hp
  have hallB : ∀ p ∈ MapOptionsSchemaL,
      ∃ w, p.2 ((findVal (objFields (mapOpHalf (.obj fs))) p.1).getD .undefined) = .ok w ∧
        canonV w = canonV ((findVal (objFields (mapOpHalf (.obj fs))) p.1).getD .undefined) := by
    intro p hp
    have hk : p.1 ∈ MapKeys := mapSchemaKeys_mem p.1 (List.mem_map.mpr ⟨p, hp, rfl⟩)
    have htr : (findVal (objFields (mapOpHalf (.obj fs))) p.1).getD .undefined
        = jsGet (.obj fs) p.1 := mapOpHalf_get (.obj fs) p.1 hk
    rw [htr]
    exact map_allOk (.obj fs) hM p hp
  have hAnil := runFields_issues_nil (removeKeys fs MapKeys) ScrapeOptionsSchemaL
    (fun p hp => (hallA p hp).imp (fun w hw => hw.1))
  have hBnil := runFields_issues_nil (objFields (mapOpHalf (.obj fs))) MapOptionsSchemaL
    (fun p hp => (hallB p hp).imp (fun w hw => hw.1))
  have hv1 : validateScrapeOptions (mapScrapeHalf (.obj fs))
      = .ok (.obj (runFields (removeKeys fs MapKeys) ScrapeOptionsSchemaL).2) :=
    validateWith_ok_intro _ _ _ hAnil
  have hv2 : validateMapOptions (mapOpHalf (.obj fs))
      = .ok (.obj (runFields (objFields (mapOpHalf (.obj fs))) MapOptionsSchemaL).2) :=
    validateWith_ok_intro _ _ _ hBnil
  refine ⟨_, _, hv1, hv2, by simp [mapPrepare, hu, hv1, hv2], ?_⟩
  intro k hk
  rcases List.mem_append.mp hk with hks | hkm
  · have hnk : k ∉ MapKeys := scrapeKey_not_mapKey k hks
    have h2none :
        findVal (runFields (objFields (mapOpHalf (.obj fs))) MapOptionsSchemaL).2 k = none :=
      runFields_keys_none _ _ k
        (findCheck_none _ _ (fun hmem => hnk (mapSchemaKeys_mem k hmem)))
    obtain ⟨c, hc⟩ := findCheck_some_of_mem ScrapeOptionsSchemaL k hks
    have hrt := runFields_roundtrip (removeKeys fs MapKeys) ScrapeOptionsSchemaL
      scrapeKeys_nodup hallA k c hc
    show canonV _ = canonV _
    calc canonV (jsGet (spreadMerge
            (.obj (runFields (removeKeys fs MapKeys) ScrapeOptionsSchemaL).2)
            (.obj (runFields (objFields (mapOpHalf (.obj fs))) MapOptionsSchemaL).2)) k)
        = canonV ((findVal (runFields (removeKeys fs MapKeys) ScrapeOptionsSchemaL).2 k).getD
            .undefined) := by
          rw [show jsGet (spreadMerge
              (.obj (runFields (removeKeys fs MapKeys) ScrapeOptionsSchemaL).2)
              (.obj (runFields (objFields (mapOpHalf (.obj fs))) MapOptionsSchemaL).2)) k
            = (findVal (spreadFields (runFields (removeKeys fs MapKeys) ScrapeOptionsSchemaL).2
                (runFields (objFields (mapOpHalf (.obj fs))) MapOptionsSchemaL).2) k).getD
                .undefined from rfl]
          rw [jsGet_spread_left _ _ k h2none]
      _ = canonV ((findVal (removeKeys fs MapKeys) k).getD .undefined) := hrt
      _ = canonV (jsGet (.obj fs) k) := by rw [hAval k hnk]; rfl
  · have hkMK : k ∈ MapKeys := mapSchemaKeys_mem k hkm
    have h1none :
        findVal (runFields (removeKeys fs MapKeys) ScrapeOptionsSchemaL).2 k = none :=
      runFields_keys_none _ _ k
        (findCheck_none _ _ (fun hmem => (scrapeKey_not_mapKey k hmem) hkMK))
    obtain ⟨c, hc⟩ := findCheck_some_of_mem MapOptionsSchemaL k hkm
    have hrt := runFields_roundtrip (objFields (mapOpHalf (.obj fs))) MapOptionsSchemaL
      mapSchemaKeys_nodup hallB k c hc
    show canonV _ = canonV _
    calc canonV (jsGet (spreadMerge
            (.obj (runFields (removeKeys fs MapKeys) ScrapeOptionsSchemaL).2)
            (.obj (runFields (objFields (mapOpHalf (.obj fs))) MapOptionsSchemaL).2)) k)
        = canonV ((findVal (runFields (objFields (mapOpHalf (.obj fs)))
            MapOptionsSchemaL).2 k).getD .undefined) := by
          rw [show jsGet (spreadMerge
              (.obj (runFields (removeKeys fs MapKeys) ScrapeOptionsSchemaL).2)
              (.obj (runFields (objFields (mapOpHalf (.obj fs))) MapOptionsSchemaL).2)) k
            = (findVal (spreadFields (runFields (removeKeys fs MapKeys) ScrapeOptionsSchemaL).2
                (runFields (objFields (mapOpHalf (.obj fs))) MapOptionsSchemaL).2) k).getD
                .undefined from rfl]
          rw [jsGet_spread_right _ _ k h1none]
      _ = canonV ((findVal (objFields (mapOpHalf (.obj fs))) k).getD .undefined) := hrt
      _ = canonV (jsGet (.obj fs) k) := congrArg canonV (mapOpHalf_get (.obj fs) k hkMK)

theorem crawlLossless (inst : Instance) (s : String) (fs : List (String × JsVal))
    (hs : jsTrim s ≠ "")
    (hS : scrapeFieldsOk (.obj fs) = true) (hM : crawlFieldsOk (.obj fs) = true) :
    ∃ v1 v2,
      validateScrapeOptions (crawlScrapeHalf (.obj fs)) = .ok v1 ∧
      validateCrawlOptions (crawlOpHalf (.obj fs)) = .ok v2 ∧
      crawlPrepare inst (.str s) (.obj fs)
        = .ok (dispatchOf inst "crawl" (.str s) (spreadMerge v1 v2)) ∧
      ∀ k ∈ ScrapeOptionsSchemaL.map Prod.fst ++ CrawlOptionsSchemaL.map Prod.fst,
        jsEqual (jsGet (spreadMerge v1 v2) k) (jsGet (.obj fs) k) := by
  have hu : urlOk (.str s) = true := by simp [urlOk, hs]
  have hAval : ∀ k, k ∉ CrawlKeys →
      (findVal (removeKeys fs CrawlKeys) k).getD .undefined = (findVal fs k).getD .undefined := by
    intro k hk
    rw [findVal_removeKeys]
    simp [hk]
  have hallA : ∀ p ∈ ScrapeOptionsSchemaL,
      ∃ w, p.2 ((findVal (removeKeys fs CrawlKeys) p.1).getD .undefined) = .ok w ∧
        canonV w = canonV ((findVal (removeKeys fs CrawlKeys) p.1).getD .undefined) := by
    intro p hp
    have hnk : p.1 ∉ CrawlKeys :=
      scrapeKey_not_crawlKey p.1 (List.mem_map.mpr ⟨p, hp, rfl⟩)
    rw [hAval p.1 hnk]
    exact scrape_allOk fs hS p hp
  have hallB : ∀ p ∈ CrawlOptionsSchemaL,
      ∃ w, p.2 ((findVal (objFields (crawlOpHalf (.obj fs))) p.1).getD .undefined) = .ok w ∧
        canonV w = canonV ((findVal (objFields (crawlOpHalf (.obj fs))) p.1).getD .undefined) := by
    intro p hp
    have hk : p.1 ∈ CrawlKeys := crawlSchemaKeys_mem p.1 (List.mem_map.mpr ⟨p, hp, rfl⟩)
    have htr : (findVal (objFields (crawlOpHalf (.obj fs))) p.1).getD .undefined
        = jsGet (.obj fs) p.1 := crawlOpHalf_get (.obj fs) p.1 hk
    rw [htr]
    exact crawl_allOk (.obj fs) hM p hp
  have hAnil := runFields_issues_nil (removeKeys fs CrawlKeys) ScrapeOptionsSchemaL
    (fun p hp => (hallA p hp).imp (fun w hw => hw.1))
  have hBnil := runFields_issues_nil (objFields (crawlOpHalf (.obj fs))) CrawlOptionsSchemaL
    (fun p hp => (hallB p hp).imp (fun w hw => hw.1))
  have hv1 : validateScrapeOptions (crawlScrapeHalf (.obj fs))
      = .ok (.obj (runFields (removeKeys fs CrawlKeys) ScrapeOptionsSchemaL).2) :=
    validateWith_ok_intro _ _ _ hAnil
  have hv2 : validateCrawlOptions (crawlOpHalf (.obj fs))
      = .ok (.obj (runFields (objFields (crawlOpHalf (.obj fs))) CrawlOptionsSchemaL).2) :=
    validateWith_ok_intro _ _ _ hBnil
  refine ⟨_, _, hv1, hv2, by simp [crawlPrepare, hu, hv1, hv2], ?_⟩
  intro k hk
  rcases List.mem_append.mp hk with hks | hkm
  · have hnk : k ∉ CrawlKeys := scrapeKey_not_crawlKey k hks
    have h2none :
        findVal (runFields (objFields (crawlOpHalf (.obj fs))) CrawlOptionsSchemaL).2 k = none :=
      runFields_keys_none _ _ k
        (findCheck_none _ _ (fun hmem => hnk (crawlSchemaKeys_mem k hmem)))
    obtain ⟨c, hc⟩ := findCheck_some_of_mem ScrapeOptionsSchemaL k hks
    have hrt := runFields_roundtrip (removeKeys fs CrawlKeys) ScrapeOptionsSchemaL
      scrapeKeys_nodup hallA k c hc
    show canonV _ = canonV _
    calc canonV (jsGet (spreadMerge
            (.obj (runFields (removeKeys fs CrawlKeys) ScrapeOptionsSchemaL).2)
            (.obj (runFields (objFields (crawlOpHalf (.obj fs))) CrawlOptionsSchemaL).2)) k)
        = canonV ((findVal (runFields (removeKeys fs CrawlKeys) ScrapeOptionsSchemaL).2 k).getD
            .undefined) := by
          rw [show jsGet (spreadMerge
              (.obj (runFields (removeKeys fs CrawlKeys) ScrapeOptionsSchemaL).2)
              (.obj (runFields (objFields (crawlOpHalf (.obj fs))) CrawlOptionsSchemaL).2)) k
            = (findVal (spreadFields (runFields (removeKeys fs CrawlKeys) ScrapeOptionsSchemaL).2
                (runFields (objFields (crawlOpHalf (.obj fs))) CrawlOptionsSchemaL).2) k).getD
                .undefined from rfl]
          rw [jsGet_spread_left _ _ k h2none]
      _ = canonV ((findVal (removeKeys fs CrawlKeys) k).getD .undefined) := hrt
      _ = canonV (jsGet (.obj fs) k) := by rw [hAval k hnk]; rfl
  · have hkMK : k ∈ CrawlKeys := crawlSchemaKeys_mem k hkm
    have h1none :
        findVal (runFields (removeKeys fs CrawlKeys) ScrapeOptionsSchemaL).2 k = none :=
      runFields_keys_none _ _ k
        (findCheck_none _ _ (fun hmem => (scrapeKey_not_crawlKey k hmem) hkMK))
    obtain ⟨c, hc⟩ := findCheck_some_of_mem CrawlOptionsSchemaL k hkm
    have hrt := runFields_roundtrip (objFields (crawlOpHalf (.obj fs))) CrawlOptionsSchemaL
      crawlSchemaKeys_nodup hallB k c hc
    show canonV _ = canonV _
    calc canonV (jsGet (spreadMerge
            (.obj (runFields (removeKeys fs CrawlKeys) ScrapeOptionsSchemaL).2)
            (.obj (runFields (objFields (crawlOpHalf (.obj fs))) CrawlOptionsSchemaL).2)) k)
        = canonV ((findVal (runFields (objFields (crawlOpHalf (.obj fs)))
            CrawlOptionsSchemaL).2 k).getD .undefined) := by
          rw [show jsGet (spreadMerge
              (.obj (runFields (removeKeys fs CrawlKeys) ScrapeOptionsSchemaL).2)
              (.obj (runFields (objFields (crawlOpHalf (.obj fs))) CrawlOptionsSchemaL).2)) k
            = (findVal (spreadFields (runFields (removeKeys fs CrawlKeys) ScrapeOptionsSchemaL).2
                (runFields (objFields (crawlOpHalf (.obj fs))) CrawlOptionsSchemaL).2) k).getD
                .undefined from rfl]
          rw [jsGet_spread_right _ _ k h1none]
      _ = canonV ((findVal (objFields (crawlOpHalf (.obj fs))) k).getD .undefined) := hrt
      _ = canonV (jsGet (.obj fs) k) := congrArg canonV (crawlOpHalf_get (.obj fs) k hkMK)

/-- C2: for map and crawl, when every declared field of the options
object satisfies its section-3 bound, the split of the object into the
operation half and the scrape half, the independent validation of each
half, and the spread recombination succeed; the config passed to
dispatch is exactly the spread merge of the two independently validated
halves (determinism and the deep-equality of the claim hold by this
equation); and every declared field's value survives the
split-validate-recombine round trip unchanged up to JavaScript deep
equality (jsEqual; key order inside nested objects is not observable). -/
theorem c2_splitMergeLossless :
    (∀ (inst : Instance) (s : String) (fs : List (String × JsVal)),
      jsTrim s ≠ "" → scrapeFieldsOk (.obj fs) = true → mapFieldsOk (.obj fs) = true →
      ∃ v1 v2,
        validateScrapeOptions (mapScrapeHalf (.obj fs)) = .ok v1 ∧
        validateMapOptions (mapOpHalf (.obj fs)) = .ok v2 ∧
        mapPrepare inst (.str s) (.obj fs)
          = .ok (dispatchOf inst "map" (.str s) (spreadMerge v1 v2)) ∧
        ∀ k ∈ ScrapeOptionsSchemaL.map Prod.fst ++ MapOptionsSchemaL.map Prod.fst,
          jsEqual (jsGet (spreadMerge v1 v2) k) (jsGet (.obj fs) k)) ∧
    (∀ (inst : Instance) (s : String) (fs : List (String × JsVal)),
      jsTrim s ≠ "" → scrapeFieldsOk (.obj fs) = true → crawlFieldsOk (.obj fs) = true →
      ∃ v1 v2,
        validateScrapeOptions (crawlScrapeHalf (.obj fs)) = .ok v1 ∧
        validateCrawlOptions (crawlOpHalf (.obj fs)) = .ok v2 ∧
        crawlPrepare inst (.str s) (.obj fs)
          = .ok (dispatchOf inst "crawl" (.str s) (spreadMerge v1 v2)) ∧
        ∀ k ∈ ScrapeOptionsSchemaL.map Prod.fst ++ CrawlOptionsSchemaL.map Prod.fst,
          jsEqual (jsGet (spreadMerge v1 v2) k) (jsGet (.obj fs) k)) :=
  ⟨fun inst s fs hs h1 h2 => mapLossless inst s fs hs h1 h2,
   fun inst s fs hs h1 h2 => crawlLossless inst s fs hs h1 h2⟩

/-- Witness for c2_splitMergeLossless at a concrete map call whose
options mix scrape fields, map fields, a key-reversed viewport, and an
unknown key. -/
theorem c2_splitMergeLossless_witness :
    ∃ v1 v2,
      validateScrapeOptions (mapScrapeHalf (.obj
          [("timeout", .num 6000),
           ("viewport", .obj [("height", .num 500), ("width", .num 400)]),
           ("link_types", .arr [.str "internal"]),
           ("junk", .bool true)])) = .ok v1 ∧
      validateMapOptions (mapOpHalf (.obj
          [("timeout", .num 6000),
           ("viewport", .obj [("height", .num 500), ("width", .num 400)]),
           ("link_types", .arr [.str "internal"]),
           ("junk", .bool true)])) = .ok v2 ∧
      mapPrepare ⟨false, defaultEndpointUrl, defaultFunctionId⟩ (.str "https://example.com")
          (.obj
          [("timeout", .num 6000),
           ("viewport", .obj [("height", .num 500), ("width", .num 400)]),
           ("link_types", .arr [.str "internal"]),
           ("junk", .bool true)])
        = .ok (dispatchOf ⟨false, defaultEndpointUrl, defaultFunctionId⟩ "map"
            (.str "https://example.com") (spreadMerge v1 v2)) ∧
      ∀ k ∈ ScrapeOptionsSchemaL.map Prod.fst ++ MapOptionsSchemaL.map Prod.fst,
        jsEqual (jsGet (spreadMerge v1 v2) k)
          (jsGet (.obj
            [("timeout", .num 6000),
             ("viewport", .obj [("height", .num 500), ("width", .num 400)]),
             ("link_types", .arr [.str "internal"]),
             ("junk", .bool true)]) k) :=
  c2_splitMergeLossless.1 ⟨false, defaultEndpointUrl, defaultFunctionId⟩
    "https://example.com"
    [("timeout", .num 6000),
     ("viewport", .obj [("height", .num 500), ("width", .num 400)]),
     ("link_types", .arr [.str "internal"]),
     ("junk", .bool true)]
    (by decide) (by decide) (by decide)
